import Mathlib

/-!
# JSON serialisation engine of the OMI plugin (`omi_interface.cpp`)

A shallow embedding of the encoder cluster of
`source/code/plugins/omi_interface.cpp`:

* `char_to_json`, `string_to_json`  (the String Escaper),
* the two date/time stream inserters (`timestamp_to_json`, `interval_to_json`),
* `value_to_json`, `array_to_json`, `instance_to_json`,
* `handle_results` (the Result Collector) and `OMIInterface::Enumerate`, with the
  provider calls they make,
* `OMIInterface::Connect`, `OMIInterface::Disconnect` and the entry point
  `wrap_OMIInterface_enumerate`,
* the same encoders over instances that live at addresses (`Graph`), where an instance
  may be reachable from itself.

The output stream `strm` is modelled by the text appended to it: every
encoder returns the `String` it writes, and sequencing of writes is `++`.
-/

namespace OMI

/-! ## Declarations of `MI.h` used by the plugin

The header `MI.h` of the OMI library is not part of the sources.  The types follow the
data model of the specification; the numeric values of the constants are those of the
public header (`MI_ARRAY` is bit 4, the scalar tags are 0 to 15, the array tags 16 to
31, `MI_FLAG_NULL` is bit 29, `MI_RESULT_OK` is 0). -/

/-- Modelled from the spec: `MI_Type` of the `MI.h` header, which is not part of the
sources.  A type tag is the underlying integer of the enumeration. -/
abbrev MI_Type := Nat

/-- Modelled from the spec: `MI_Result` of `MI.h`, a status code. -/
abbrev MI_Result := Nat

/-- Modelled from the spec: `MI_Boolean` of `MI.h`, an `unsigned char`. -/
abbrev MI_Boolean := Nat

/-- Modelled from the spec: the success status of `MI.h`. -/
def MI_RESULT_OK : MI_Result := 0

/-- Modelled from the spec: the status `MI.h` reports for an unusable handle. -/
def MI_RESULT_INVALID_PARAMETER : MI_Result := 4

/-- Modelled from the spec: `MI_FALSE` of `MI.h`. -/
def MI_FALSE : MI_Boolean := 0

/-- Modelled from the spec: `MI_TRUE` of `MI.h`. -/
def MI_TRUE : MI_Boolean := 1

/-- Modelled from the spec: the null flag of an element (`MI_FLAG_NULL`, bit 29 in `MI.h`). -/
def MI_FLAG_NULL : Nat := 2 ^ 29

/-- Modelled from the spec: the array bit of a type tag (`MI_ARRAY` in `MI.h`). -/
def MI_ARRAY : MI_Type := 16

/-- Modelled from the spec: the sixteen scalar tags of `MI.h`, in the order of the data
model (boolean, integers of width 8/16/32/64, reals, UTF-16 code unit, date/time, string,
reference, embedded instance). -/
def MI_BOOLEAN : MI_Type := 0
/-- Modelled from the spec: tag of `MI.h` for an unsigned 8-bit integer. -/
def MI_UINT8 : MI_Type := 1
/-- Modelled from the spec: tag of `MI.h` for a signed 8-bit integer. -/
def MI_SINT8 : MI_Type := 2
/-- Modelled from the spec: tag of `MI.h` for an unsigned 16-bit integer. -/
def MI_UINT16 : MI_Type := 3
/-- Modelled from the spec: tag of `MI.h` for a signed 16-bit integer. -/
def MI_SINT16 : MI_Type := 4
/-- Modelled from the spec: tag of `MI.h` for an unsigned 32-bit integer. -/
def MI_UINT32 : MI_Type := 5
/-- Modelled from the spec: tag of `MI.h` for a signed 32-bit integer. -/
def MI_SINT32 : MI_Type := 6
/-- Modelled from the spec: tag of `MI.h` for an unsigned 64-bit integer. -/
def MI_UINT64 : MI_Type := 7
/-- Modelled from the spec: tag of `MI.h` for a signed 64-bit integer. -/
def MI_SINT64 : MI_Type := 8
/-- Modelled from the spec: tag of `MI.h` for a single precision real. -/
def MI_REAL32 : MI_Type := 9
/-- Modelled from the spec: tag of `MI.h` for a double precision real. -/
def MI_REAL64 : MI_Type := 10
/-- Modelled from the spec: tag of `MI.h` for a UTF-16 code unit. -/
def MI_CHAR16 : MI_Type := 11
/-- Modelled from the spec: tag of `MI.h` for a date/time value. -/
def MI_DATETIME : MI_Type := 12
/-- Modelled from the spec: tag of `MI.h` for a string. -/
def MI_STRING : MI_Type := 13
/-- Modelled from the spec: tag of `MI.h` for a reference to an instance. -/
def MI_REFERENCE : MI_Type := 14
/-- Modelled from the spec: tag of `MI.h` for an embedded instance. -/
def MI_INSTANCE : MI_Type := 15
/-- Modelled from the spec: array tag of `MI.h`, the scalar tag with the array bit set. -/
def MI_BOOLEANA : MI_Type := 16
/-- Modelled from the spec: array tag of `MI.h`. -/
def MI_UINT8A : MI_Type := 17
/-- Modelled from the spec: array tag of `MI.h`. -/
def MI_SINT8A : MI_Type := 18
/-- Modelled from the spec: array tag of `MI.h`. -/
def MI_UINT16A : MI_Type := 19
/-- Modelled from the spec: array tag of `MI.h`. -/
def MI_SINT16A : MI_Type := 20
/-- Modelled from the spec: array tag of `MI.h`. -/
def MI_UINT32A : MI_Type := 21
/-- Modelled from the spec: array tag of `MI.h`. -/
def MI_SINT32A : MI_Type := 22
/-- Modelled from the spec: array tag of `MI.h`. -/
def MI_UINT64A : MI_Type := 23
/-- Modelled from the spec: array tag of `MI.h`. -/
def MI_SINT64A : MI_Type := 24
/-- Modelled from the spec: array tag of `MI.h`. -/
def MI_REAL32A : MI_Type := 25
/-- Modelled from the spec: array tag of `MI.h`. -/
def MI_REAL64A : MI_Type := 26
/-- Modelled from the spec: array tag of `MI.h`. -/
def MI_CHAR16A : MI_Type := 27
/-- Modelled from the spec: array tag of `MI.h`. -/
def MI_DATETIMEA : MI_Type := 28
/-- Modelled from the spec: array tag of `MI.h`. -/
def MI_STRINGA : MI_Type := 29
/-- Modelled from the spec: array tag of `MI.h`. -/
def MI_REFERENCEA : MI_Type := 30
/-- Modelled from the spec: array tag of `MI.h`. -/
def MI_INSTANCEA : MI_Type := 31

/-- Modelled from the spec: `MI_Timestamp` of `MI.h` (year, month, day, hour, minute,
second, microseconds as unsigned 32-bit fields; the UTC offset in minutes is signed). -/
structure MI_Timestamp where
  year : Nat
  month : Nat
  day : Nat
  hour : Nat
  minute : Nat
  second : Nat
  microseconds : Nat
  utc : Int
  deriving DecidableEq, Repr

/-- Modelled from the spec: `MI_Interval` of `MI.h` (days, hours, minutes, seconds,
microseconds, all unsigned 32-bit). -/
structure MI_Interval where
  days : Nat
  hours : Nat
  minutes : Nat
  seconds : Nat
  microseconds : Nat
  deriving DecidableEq, Repr

/-- Modelled from the spec: `MI_Datetime` of `MI.h`: the flag `isTimestamp` and the union
`u` of the two shapes.  Both members of the union are kept as views, the code chooses
which one it reads. -/
structure MI_Datetime where
  isTimestamp : Nat
  timestamp : MI_Timestamp
  interval : MI_Interval
  deriving DecidableEq, Repr

/-- Modelled from the spec: a value of `MI_Real32` or `MI_Real64`.  A finite value is
`(-1)^negative * mantissa * 2^exponent`; the two other shapes are the IEEE infinities
and not-a-number. -/
inductive MI_Real where
  | finite (negative : Bool) (mantissa : Nat) (exponent : Int)
  | infinite (negative : Bool)
  | nan (negative : Bool)
  deriving DecidableEq, Repr

/-! ## JSON tokens (the constants of the anonymous namespace) -/

def JSON_TRUE : String := "true"
def JSON_FALSE : String := "false"
def JSON_MI_TYPE : String := "MI_Type"
def JSON_MI_TIMESTAMP : String := "MI_Timestamp"
def JSON_MI_INTERVAL : String := "MI_Interval"
def JSON_CLASS_KEY : String := "ClassName"
def JSON_YEAR : String := "year"
def JSON_MONTH : String := "month"
def JSON_DAY : String := "day"
def JSON_HOUR : String := "hour"
def JSON_MINUTE : String := "minute"
def JSON_SECOND : String := "second"
def JSON_MICROSECONDS : String := "microseconds"
def JSON_UTC : String := "utc"
def JSON_DAYS : String := "days"
def JSON_HOURS : String := "hours"
def JSON_MINUTES : String := "minutes"
def JSON_SECONDS : String := "seconds"
def JSON_LIST_START : String := "["
def JSON_LIST_END : String := "]"
def JSON_DICT_START : String := "\x7b"
def JSON_DICT_END : String := "\x7d"
def JSON_SEPARATOR : String := ","
def JSON_START_STRING : String := "\""
def JSON_END_STRING : String := "\""
def JSON_PAIR_TOKEN : String := ":"
def JSON_DOUBLE_QUOTE : String := "\\\""
def JSON_BACK_SLASH : String := "\\\\"
def JSON_FORWARD_SLASH : String := "\\/"
def JSON_BACK_SPACE : String := "\\b"
def JSON_FORM_FEED : String := "\\f"
def JSON_NEWLINE : String := "\\n"
def JSON_RETURN : String := "\\r"
def JSON_TAB : String := "\\t"

/-! ## The String Escaper -/

/-- The terminator of a C string. -/
def NUL : Char := Char.ofNat 0

/-- The function `char_to_json`: the replacement of one character, `none` for `NULL`
(no replacement). -/
def char_to_json (ch : Char) : Option String :=
  if ch = '\"' then some JSON_DOUBLE_QUOTE
  else if ch = '\\' then some JSON_BACK_SLASH
  else if ch = '/' then some JSON_FORWARD_SLASH
  else if ch = '\x08' then some JSON_BACK_SPACE
  else if ch = '\x0c' then some JSON_FORM_FEED
  else if ch = '\n' then some JSON_NEWLINE
  else if ch = '\r' then some JSON_RETURN
  else if ch = '\t' then some JSON_TAB
  else none

/-- The function `string_to_json`.  The argument is the memory the pointer `str` points
to; the loop leaves at the first `NUL`, and the end of the list stands for the
terminator of the buffer. -/
def string_to_json : List Char → String
  | [] => ""
  | ch :: rest =>
    if ch = NUL then ""
    else
      (match char_to_json ch with
       | some replacement => replacement
       | none => String.singleton ch) ++ string_to_json rest

/-- What `strm << p` writes for a character pointer `p`: the characters before the
first `NUL`. -/
def c_str : List Char → String
  | [] => ""
  | ch :: rest => if ch = NUL then "" else String.singleton ch ++ c_str rest

/-! ## Default stream formatting of numbers

`strm << n` for an integer writes its decimal text (`toString` on `Nat` and `Int`).
`strm << x` for a `float` or `double` writes what `printf` writes for `%g` with
precision 6, the default of a stream: six significant digits, rounded to nearest
(ties to even), in fixed style when the decimal exponent `X` satisfies `-4 ≤ X < 6`
and in exponent style otherwise, trailing zeros removed. -/

/-- Largest `k` with `10 ^ k ≤ n` for `1 ≤ n`; fuel `n` is enough. -/
def log10_floor : Nat → Nat → Nat
  | 0, _ => 0
  | fuel + 1, n => if n < 10 then 0 else 1 + log10_floor fuel (n / 10)

/-- Smallest `k` from `k` on with `D ≤ N * 10 ^ k`; fuel `D` is enough when `0 < N`. -/
def neg_exp10 (N D : Nat) : Nat → Nat → Nat
  | 0, k => k
  | fuel + 1, k => if D ≤ N * 10 ^ k then k else neg_exp10 N D fuel (k + 1)

/-- The quotient `num / den` rounded to the nearest integer, ties to even. -/
def round_half_even (num den : Nat) : Nat :=
  let q := num / den
  let r := num % den
  if 2 * r < den then q
  else if den < 2 * r then q + 1
  else if q % 2 = 0 then q else q + 1

/-- Removal of the trailing zeros of a digit sequence. -/
def strip_zeros (ds : List Char) : List Char :=
  (ds.reverse.dropWhile (fun c => c == '0')).reverse

/-- A fraction part: nothing when no digit is left, else the point and the digits. -/
def fraction_text (frac : List Char) : String :=
  if frac = [] then "" else "." ++ String.mk frac

/-- The `%g` text (precision 6) of the positive rational `N / D`. -/
def format_g (N D : Nat) : String :=
  let e0 : Int :=
    if D ≤ N then (log10_floor (N / D) (N / D) : Nat) else -((neg_exp10 N D D 1 : Nat) : Int)
  let scaled : Nat :=
    if e0 ≤ 5 then round_half_even (N * 10 ^ (5 - e0).toNat) D
    else round_half_even N (D * 10 ^ (e0 - 5).toNat)
  let dg : Nat := if scaled = 1000000 then 100000 else scaled
  let X : Int := if scaled = 1000000 then e0 + 1 else e0
  let ds : List Char := Nat.toDigits 10 dg
  if X < -4 ∨ 6 ≤ X then
    String.mk (ds.take 1) ++ fraction_text (strip_zeros (ds.drop 1)) ++ "e" ++
      (if X < 0 then "-" else "+") ++
      (if X.natAbs < 10 then "0" else "") ++ toString X.natAbs
  else if 0 ≤ X then
    String.mk (ds.take (X.toNat + 1)) ++ fraction_text (strip_zeros (ds.drop (X.toNat + 1)))
  else
    "0." ++ String.mk (List.replicate ((-X).toNat - 1) '0') ++
      String.mk (strip_zeros ds)

/-- What `strm << x` writes for a real `x`. -/
def MI_Real.text : MI_Real → String
  | .finite negative mantissa exponent =>
    (if negative then "-" else "") ++
      (if mantissa = 0 then "0"
       else if 0 ≤ exponent then format_g (mantissa * 2 ^ exponent.toNat) 1
       else format_g mantissa (2 ^ (-exponent).toNat))
  | .infinite negative => (if negative then "-" else "") ++ "inf"
  | .nan negative => (if negative then "-" else "") ++ "nan"

/-- The rational value of a finite real. -/
def MI_Real.toRat : MI_Real → Option ℚ
  | .finite negative mantissa exponent =>
    some ((if negative then -1 else 1) * (mantissa : ℚ) * (2 : ℚ) ^ exponent)
  | .infinite _ => none
  | .nan _ => none

/-! ## The date/time stream inserters -/

/-- The inserter `operator <<` for `MI_Timestamp`. -/
def timestamp_to_json (timestamp : MI_Timestamp) : String :=
  -- type
  JSON_DICT_START
    ++ JSON_START_STRING ++ JSON_MI_TYPE ++ JSON_END_STRING
    ++ JSON_PAIR_TOKEN ++ JSON_START_STRING ++ JSON_MI_TIMESTAMP ++ JSON_END_STRING
    ++ JSON_SEPARATOR
  -- year
    ++ JSON_START_STRING ++ JSON_YEAR ++ JSON_END_STRING ++ JSON_PAIR_TOKEN
    ++ JSON_START_STRING ++ toString timestamp.year ++ JSON_END_STRING
    ++ JSON_SEPARATOR
  -- month
    ++ JSON_START_STRING ++ JSON_MONTH ++ JSON_END_STRING
    ++ JSON_PAIR_TOKEN
    ++ JSON_START_STRING ++ toString timestamp.month ++ JSON_END_STRING
    ++ JSON_SEPARATOR
  -- day
    ++ JSON_START_STRING ++ JSON_DAY ++ JSON_END_STRING ++ JSON_PAIR_TOKEN
    ++ JSON_START_STRING ++ toString timestamp.day ++ JSON_END_STRING
    ++ JSON_SEPARATOR
  -- hour
    ++ JSON_START_STRING ++ JSON_HOUR ++ JSON_END_STRING ++ JSON_PAIR_TOKEN
    ++ JSON_START_STRING ++ toString timestamp.hour ++ JSON_END_STRING
    ++ JSON_SEPARATOR
  -- minute
    ++ JSON_START_STRING ++ JSON_MINUTE ++ JSON_END_STRING
    ++ JSON_PAIR_TOKEN
    ++ JSON_START_STRING ++ toString timestamp.minute ++ JSON_END_STRING
    ++ JSON_SEPARATOR
  -- second
    ++ JSON_START_STRING ++ JSON_SECOND ++ JSON_END_STRING
    ++ JSON_PAIR_TOKEN
    ++ JSON_START_STRING ++ toString timestamp.second ++ JSON_END_STRING
    ++ JSON_SEPARATOR
  -- microseconds
    ++ JSON_START_STRING ++ JSON_MICROSECONDS ++ JSON_END_STRING
    ++ JSON_PAIR_TOKEN
    ++ JSON_START_STRING ++ toString timestamp.microseconds ++ JSON_END_STRING
    ++ JSON_SEPARATOR
  -- utc
    ++ JSON_START_STRING ++ JSON_UTC ++ JSON_END_STRING ++ JSON_PAIR_TOKEN
    ++ JSON_START_STRING ++ toString timestamp.utc ++ JSON_END_STRING
    ++ JSON_DICT_END

/-- The inserter `operator <<` for `MI_Interval`.  Its last write is the separator that
follows the microseconds field. -/
def interval_to_json (interval : MI_Interval) : String :=
  -- type
  JSON_DICT_START
    ++ JSON_START_STRING ++ JSON_MI_TYPE ++ JSON_END_STRING
    ++ JSON_PAIR_TOKEN ++ JSON_START_STRING ++ JSON_MI_INTERVAL ++ JSON_END_STRING
    ++ JSON_SEPARATOR
  -- days
    ++ JSON_START_STRING ++ JSON_DAYS ++ JSON_END_STRING ++ JSON_PAIR_TOKEN
    ++ JSON_START_STRING ++ toString interval.days ++ JSON_END_STRING
    ++ JSON_SEPARATOR
  -- hours
    ++ JSON_START_STRING ++ JSON_HOURS ++ JSON_END_STRING
    ++ JSON_PAIR_TOKEN
    ++ JSON_START_STRING ++ toString interval.hours ++ JSON_END_STRING
    ++ JSON_SEPARATOR
  -- minutes
    ++ JSON_START_STRING ++ JSON_MINUTES ++ JSON_END_STRING
    ++ JSON_PAIR_TOKEN
    ++ JSON_START_STRING ++ toString interval.minutes ++ JSON_END_STRING
    ++ JSON_SEPARATOR
  -- seconds
    ++ JSON_START_STRING ++ JSON_SECONDS ++ JSON_END_STRING
    ++ JSON_PAIR_TOKEN
    ++ JSON_START_STRING ++ toString interval.seconds ++ JSON_END_STRING
    ++ JSON_SEPARATOR
  -- microseconds
    ++ JSON_START_STRING ++ JSON_MICROSECONDS ++ JSON_END_STRING
    ++ JSON_PAIR_TOKEN
    ++ JSON_START_STRING ++ toString interval.microseconds ++ JSON_END_STRING
    ++ JSON_SEPARATOR

/-! ## Values, elements and instances

`MI_Value` is a C union that the code reads through the member its type tag selects.
The embedding keeps every member as a view of the same memory, so that reading any
member is defined whatever the tag.  An array member (`data`, `size`) is the list of the
`size` cells `data + i`, each one seen as the `MI_Value` that
`reinterpret_cast<MI_Value const*>(array.data + i)` gives.  An instance is known
through the three accessors the code calls on it. -/

/-- Modelled from the spec: the scalar members of the union `MI_Value` of `MI.h`. -/
structure MI_Scalars where
  boolean : MI_Boolean
  uint8 : Nat
  sint8 : Int
  uint16 : Nat
  sint16 : Int
  uint32 : Nat
  sint32 : Int
  uint64 : Nat
  sint64 : Int
  real32 : MI_Real
  real64 : MI_Real
  char16 : Nat
  datetime : MI_Datetime
  string : List Char

mutual
/-- Modelled from the spec: the union `MI_Value` of `MI.h`: its scalar members, the two
instance pointers (dereferenced) and the fifteen array members. -/
inductive MI_Value where
  | mk (scalars : MI_Scalars) (reference : MI_Instance) (instance_ : MI_Instance)
      (booleana uint8a sint8a uint16a sint16a uint32a sint32a uint64a sint64a
        real32a real64a char16a datetimea stringa instancea : List MI_Value)
/-- Modelled from the spec: the answer of `MI_Instance_GetElementAt` for one index: its
status and the four out-parameters (element name, value, type tag, flags). -/
inductive MI_Element where
  | mk (result : MI_Result) (elementName : List Char) (value : MI_Value) (type : MI_Type)
      (flags : Nat)
/-- Modelled from the spec: an `MI_Instance` of `MI.h` as the code sees it: the status
and out-parameter of `MI_Instance_GetClassName`, the status of
`MI_Instance_GetElementCount`, and the answers of `MI_Instance_GetElementAt` for the
indices `0 .. count - 1`. -/
inductive MI_Instance where
  | mk (classNameResult : MI_Result) (className : List Char) (countResult : MI_Result)
      (elements : List MI_Element)
end

/-- The expression `x & ~m`: the bits of `m` cleared in `x`. -/
def clear_bits (x m : Nat) : Nat := x ^^^ (x &&& m)

/-! ## The encoders -/

mutual
/-- The function `value_to_json`: the opening wrapper, the `switch` over the type tag
(no `default` label: a tag without a case writes nothing there), the closing wrapper. -/
def value_to_json : MI_Value → MI_Type → String
  | .mk value reference instance_ booleana uint8a sint8a uint16a sint16a uint32a sint32a
      uint64a sint64a real32a real64a char16a datetimea stringa instancea, type =>
    (if MI_ARRAY &&& type ≠ 0 then JSON_LIST_START
     else if type ≠ MI_DATETIME then JSON_START_STRING
     else "") ++
    (if type = MI_BOOLEAN then (if MI_FALSE = value.boolean then JSON_FALSE else JSON_TRUE)
     else if type = MI_UINT8 then toString value.uint8
     else if type = MI_SINT8 then toString value.sint8
     else if type = MI_UINT16 then toString value.uint16
     else if type = MI_SINT16 then toString value.sint16
     else if type = MI_UINT32 then toString value.uint32
     else if type = MI_SINT32 then toString value.sint32
     else if type = MI_UINT64 then toString value.uint64
     else if type = MI_SINT64 then toString value.sint64
     else if type = MI_REAL32 then value.real32.text
     else if type = MI_REAL64 then value.real64.text
     else if type = MI_CHAR16 then toString value.char16
     else if type = MI_DATETIME then
       (if value.datetime.isTimestamp ≠ 0 then timestamp_to_json value.datetime.timestamp
        else interval_to_json value.datetime.interval)
     else if type = MI_STRING then string_to_json value.string
     else if type = MI_REFERENCE then instance_to_json reference
     else if type = MI_INSTANCE then instance_to_json instance_
     else if type = MI_BOOLEANA then array_to_json 0 booleana type
     else if type = MI_UINT8A then array_to_json 0 uint8a type
     else if type = MI_SINT8A then array_to_json 0 sint8a type
     else if type = MI_UINT16A then array_to_json 0 uint16a type
     else if type = MI_SINT16A then array_to_json 0 sint16a type
     else if type = MI_UINT32A then array_to_json 0 uint32a type
     else if type = MI_SINT32A then array_to_json 0 sint32a type
     else if type = MI_UINT64A then array_to_json 0 uint64a type
     else if type = MI_SINT64A then array_to_json 0 sint64a type
     else if type = MI_REAL32A then array_to_json 0 real32a type
     else if type = MI_REAL64A then array_to_json 0 real64a type
     else if type = MI_CHAR16A then array_to_json 0 char16a type
     else if type = MI_DATETIMEA then array_to_json 0 datetimea type
     else if type = MI_STRINGA then array_to_json 0 stringa type
     else if type = MI_REFERENCEA ∨ type = MI_INSTANCEA then array_to_json 0 instancea type
     else "") ++
    (if MI_ARRAY &&& type ≠ 0 then JSON_LIST_END
     else if type ≠ MI_DATETIME then JSON_END_STRING
     else "")
/-- The loop of `array_to_json` from index `i` on, over the cells that are left. -/
def array_to_json (i : Nat) : List MI_Value → MI_Type → String
  | [], _ => ""
  | cell :: cells, type =>
    (if 0 ≠ i then JSON_SEPARATOR else "") ++
    value_to_json cell (clear_bits type MI_ARRAY) ++
    array_to_json (i + 1) cells type
/-- The function `instance_to_json`. -/
def instance_to_json : MI_Instance → String
  | .mk classNameResult className countResult elements =>
    if MI_RESULT_OK = classNameResult ∧ MI_RESULT_OK = countResult then
      JSON_DICT_START
        ++ JSON_START_STRING ++ JSON_CLASS_KEY ++ JSON_END_STRING
        ++ JSON_PAIR_TOKEN ++ JSON_START_STRING ++ c_str className ++ JSON_END_STRING
        ++ elements_to_json elements
        ++ JSON_DICT_END
    else ""
/-- The element loop of `instance_to_json`, over the answers of
`MI_Instance_GetElementAt` that are left. -/
def elements_to_json : List MI_Element → String
  | [] => ""
  | .mk result elementName value type flags :: rest =>
    (if MI_RESULT_OK = result ∧ 0 = MI_FLAG_NULL &&& flags then
       JSON_SEPARATOR
         ++ JSON_START_STRING
         ++ string_to_json elementName
         ++ JSON_END_STRING ++ JSON_PAIR_TOKEN
         ++ value_to_json value type
     else "") ++
    elements_to_json rest
end

/-! ## The Result Collector and the Enumeration Driver -/

/-- Modelled from the spec: what one call of `MI_Operation_GetInstance` gives back: its
return status and the out-parameters `pInstance` (`none` for `NULL`), `moreRemaining`
and `result` as they stand after the call. -/
structure MI_Pull where
  instanceResult : MI_Result
  pInstance : Option MI_Instance
  moreRemaining : MI_Boolean
  result : MI_Result

/-- Modelled from the spec: the Result Cursor `MI_Operation`, a pull-based sequence: the
answers the provider gives to the successive pulls.  A pull on a cursor with no answer
left fails the way `MI.h` fails on an unusable handle: no instance, nothing more
pending, a non-success result. -/
abbrev MI_Operation := List MI_Pull

/-- The body of the `do ... while` loop of `handle_results` after the pull: the text
written for the pulled instance and the count after it. -/
def handle_pull (count : Nat) (pull : MI_Pull) : String × Nat :=
  match pull.pInstance with
  | some pInstance =>
    if MI_RESULT_OK = pull.instanceResult then
      ((if 0 < count then JSON_SEPARATOR else "") ++ instance_to_json pInstance, count + 1)
    else ("", count)
  | none => ("", count)

/-- The `do ... while` loop of `handle_results`, entered with the current `count`: the
text written and the final count. -/
def handle_results_loop (count : Nat) : MI_Operation → String × Nat
  | [] => ("", count)
  | pull :: operation =>
    if MI_RESULT_OK = pull.result ∧ MI_TRUE = pull.moreRemaining then
      ((handle_pull count pull).1 ++
          (handle_results_loop (handle_pull count pull).2 operation).1,
        (handle_results_loop (handle_pull count pull).2 operation).2)
    else handle_pull count pull

/-- The function `handle_results`: the text written to the stream and the returned
count. -/
def handle_results (operation : MI_Operation) : String × Nat :=
  handle_results_loop 0 operation

/-- An enumeration request, the pair stored in `enumItems`. -/
abbrev EnumItem := List Char × List Char

/-- Modelled from the spec: the provider behind `MI_Session_EnumerateInstances`: the
cursor it opens for the `k`-th request of a call (counted from 0) with the two strings
of that request. -/
abbrev MI_Session := Nat → List Char → List Char → MI_Operation

/-- The `for` loop of `OMIInterface::Enumerate` from request number `k` on. -/
def Enumerate_loop (m_Session : MI_Session) (k : Nat) (addSeparator : Bool) :
    List EnumItem → String
  | [] => ""
  | pos :: rest =>
    let operation := m_Session k pos.1 pos.2
    (if addSeparator then JSON_SEPARATOR else "") ++
    (handle_results operation).1 ++
    Enumerate_loop m_Session (k + 1) (decide (0 < (handle_results operation).2)) rest

/-- The method `OMIInterface::Enumerate`: the returned status and the text written. -/
def Enumerate (m_Session : MI_Session) (enumItems : List EnumItem) : MI_Result × String :=
  (MI_RESULT_OK,
    JSON_LIST_START ++ Enumerate_loop m_Session 0 false enumItems ++ JSON_LIST_END)

/-! ## Sample data -/

/-- An instance with readable metadata and no element. -/
def MI_Instance.named (className : String) : MI_Instance :=
  .mk MI_RESULT_OK className.data MI_RESULT_OK []

/-- Scalar members that are all zero. -/
def MI_Scalars.zero : MI_Scalars :=
  { boolean := 0, uint8 := 0, sint8 := 0, uint16 := 0, sint16 := 0, uint32 := 0,
    sint32 := 0, uint64 := 0, sint64 := 0, real32 := .finite false 0 0,
    real64 := .finite false 0 0, char16 := 0,
    datetime := ⟨0, ⟨0, 0, 0, 0, 0, 0, 0, 0⟩, ⟨0, 0, 0, 0, 0⟩⟩, string := [] }

/-- The value with the given scalar members, empty instances and empty arrays. -/
def MI_Value.ofScalars (s : MI_Scalars) : MI_Value :=
  .mk s (MI_Instance.named "") (MI_Instance.named "") [] [] [] [] [] [] [] [] [] [] [] [] [] [] []

/-- The value whose member `uint32` is `n`, all other members zero or empty. -/
def MI_Value.ofUint32 (n : Nat) : MI_Value :=
  .ofScalars { MI_Scalars.zero with uint32 := n }

/-- The value whose member `uint8` is `n`, all other members zero or empty. -/
def MI_Value.ofUint8 (n : Nat) : MI_Value :=
  .ofScalars { MI_Scalars.zero with uint8 := n }

/-- The value whose member `sint8` is `n`, all other members zero or empty. -/
def MI_Value.ofSint8 (n : Int) : MI_Value :=
  .ofScalars { MI_Scalars.zero with sint8 := n }

/-- The value whose member `datetime` is `d`, all other members zero or empty. -/
def MI_Value.ofDatetime (d : MI_Datetime) : MI_Value :=
  .ofScalars { MI_Scalars.zero with datetime := d }

/-- The timestamp of 19 August 2015, 10:57:14, offset 0. -/
def sample_timestamp : MI_Timestamp := ⟨2015, 8, 19, 10, 57, 14, 0, 0⟩

/-- The interval of 1 day, 2 hours, 3 minutes, 4 seconds and 5 microseconds. -/
def sample_interval : MI_Interval := ⟨1, 2, 3, 4, 5⟩

/-- The value whose member `real64` is the integer `n`, all other members zero or empty. -/
def MI_Value.ofReal64 (n : Nat) : MI_Value :=
  .ofScalars { MI_Scalars.zero with real64 := .finite false n 0 }

/-- The value whose member `instance` points to `i`, all other members zero or empty. -/
def MI_Value.ofInstance (i : MI_Instance) : MI_Value :=
  .mk MI_Scalars.zero (MI_Instance.named "") i [] [] [] [] [] [] [] [] [] [] [] [] [] [] []

/-- The value whose member `uint32a` holds the given cells. -/
def MI_Value.ofUint32A (cells : List Nat) : MI_Value :=
  .mk MI_Scalars.zero (MI_Instance.named "") (MI_Instance.named "") [] [] [] [] []
    (cells.map MI_Value.ofUint32) [] [] [] [] [] [] [] [] []

/-- An instance of class `X` with the elements `A` (1, not null) and `B` (2, null
flagged), both unsigned 32-bit. -/
def sample_instance : MI_Instance :=
  .mk MI_RESULT_OK "X".data MI_RESULT_OK
    [.mk MI_RESULT_OK "A".data (.ofUint32 1) MI_UINT32 0,
     .mk MI_RESULT_OK "B".data (.ofUint32 2) MI_UINT32 MI_FLAG_NULL]

/-- A cursor that yields one instance of class `X` and then reports that nothing is
pending. -/
def one_instance_operation : MI_Operation :=
  [⟨MI_RESULT_OK, some (MI_Instance.named "X"), MI_FALSE, MI_RESULT_OK⟩]

/-- A cursor that yields no instance: its only pull succeeds with a null instance and
nothing pending. -/
def no_instance_operation : MI_Operation :=
  [⟨MI_RESULT_OK, none, MI_FALSE, MI_RESULT_OK⟩]

/-- A provider whose first cursor yields one instance and whose later cursors yield
none. -/
def one_then_none_session : MI_Session :=
  fun k _ _ => if k = 0 then one_instance_operation else no_instance_operation

/-! ## Reference notions used to state the properties -/

/-- The scalar members of a value. -/
def MI_Value.scalars : MI_Value → MI_Scalars
  | .mk scalars _ _ _ _ _ _ _ _ _ _ _ _ _ _ _ _ _ => scalars

/-- The instance the member `reference` points to. -/
def MI_Value.reference : MI_Value → MI_Instance
  | .mk _ reference _ _ _ _ _ _ _ _ _ _ _ _ _ _ _ _ => reference

/-- The instance the member `instance` points to. -/
def MI_Value.instance_ : MI_Value → MI_Instance
  | .mk _ _ instance_ _ _ _ _ _ _ _ _ _ _ _ _ _ _ _ => instance_

/-- The array member that the `switch` of `value_to_json` reads for an array tag. -/
def MI_Value.array_member : MI_Value → MI_Type → List MI_Value
  | .mk _ _ _ booleana uint8a sint8a uint16a sint16a uint32a sint32a uint64a sint64a
      real32a real64a char16a datetimea stringa instancea, type =>
    if type = MI_BOOLEANA then booleana
    else if type = MI_UINT8A then uint8a
    else if type = MI_SINT8A then sint8a
    else if type = MI_UINT16A then uint16a
    else if type = MI_SINT16A then sint16a
    else if type = MI_UINT32A then uint32a
    else if type = MI_SINT32A then sint32a
    else if type = MI_UINT64A then uint64a
    else if type = MI_SINT64A then sint64a
    else if type = MI_REAL32A then real32a
    else if type = MI_REAL64A then real64a
    else if type = MI_CHAR16A then char16a
    else if type = MI_DATETIMEA then datetimea
    else if type = MI_STRINGA then stringa
    else if type = MI_REFERENCEA ∨ type = MI_INSTANCEA then instancea
    else []

/-- Concatenation of texts, in order. -/
def concat_texts : List String → String
  | [] => ""
  | t :: ts => t ++ concat_texts ts

/-- What the Instance Encoder is specified to write for one element: nothing for an
element that is null flagged (or that could not be read), else a comma, the quoted
escaped name, a colon and the encoded value. -/
def MI_Element.text : MI_Element → String
  | .mk result elementName value type flags =>
    if result = MI_RESULT_OK ∧ MI_FLAG_NULL &&& flags = 0 then
      ",\"" ++ string_to_json elementName ++ "\":" ++ value_to_json value type
    else ""

/-- The value of a hexadecimal digit. -/
def hex_value (c : Char) : Option Nat :=
  if 48 ≤ c.toNat ∧ c.toNat ≤ 57 then some (c.toNat - 48)
  else if 65 ≤ c.toNat ∧ c.toNat ≤ 70 then some (c.toNat - 55)
  else if 97 ≤ c.toNat ∧ c.toNat ≤ 102 then some (c.toNat - 87)
  else none

/-- JSON unescaping of the content of a string (RFC 8259, section 7): a backslash
followed by one of the eight escape letters stands for the escaped character, a
backslash followed by `u` and four hexadecimal digits for that code, any other
character for itself; a backslash followed by anything else is an error. -/
def json_unescape : List Char → Option (List Char)
  | [] => some []
  | c :: rest =>
    if c = '\\' then
      match rest with
      | [] => none
      | e :: rest1 =>
        if e = '\"' then (json_unescape rest1).map (List.cons '\"')
        else if e = '\\' then (json_unescape rest1).map (List.cons '\\')
        else if e = '/' then (json_unescape rest1).map (List.cons '/')
        else if e = 'b' then (json_unescape rest1).map (List.cons '\x08')
        else if e = 'f' then (json_unescape rest1).map (List.cons '\x0c')
        else if e = 'n' then (json_unescape rest1).map (List.cons '\n')
        else if e = 'r' then (json_unescape rest1).map (List.cons '\r')
        else if e = 't' then (json_unescape rest1).map (List.cons '\t')
        else if e = 'u' then
          match rest1 with
          | h1 :: h2 :: h3 :: h4 :: rest2 =>
            match hex_value h1, hex_value h2, hex_value h3, hex_value h4 with
            | some a, some b, some c1, some d =>
              (json_unescape rest2).map
                (List.cons (Char.ofNat (((a * 16 + b) * 16 + c1) * 16 + d)))
            | _, _, _, _ => none
          | _ => none
        else none
    else (json_unescape rest).map (List.cons c)

/-- The text between the opening and the closing quote of a quoted text. -/
def between_quotes (s : String) : Option String :=
  match s.data with
  | [] => none
  | q :: rest =>
    if q = '\"' ∧ rest.getLast? = some '\"' then
      some (String.mk rest.dropLast)
    else none

/-- The decimal parser of an unsigned integer: one or more decimal digits. -/
def parse_unsigned (s : String) : Option Nat :=
  if s.data ≠ [] ∧ s.data.all Char.isDigit then
    some (s.data.foldl (fun n c => n * 10 + (c.toNat - 48)) 0)
  else none

/-- The decimal parser of a signed integer: an optional minus sign and an unsigned
integer. -/
def parse_signed (s : String) : Option Int :=
  match s.data with
  | [] => none
  | c :: rest =>
    if c = '-' then (parse_unsigned (String.mk rest)).map (fun n => -(n : Int))
    else (parse_unsigned s).map (fun n => (n : Int))

/-- The text parser of a boolean written as `true` or `false`. -/
def parse_boolean (s : String) : Option MI_Boolean :=
  if s = JSON_TRUE then some MI_TRUE
  else if s = JSON_FALSE then some MI_FALSE
  else none

/-! ## Provider calls made by the Result Collector and the Enumeration Driver -/

/-- The number of calls of `MI_Operation_GetInstance` that the `do ... while` loop of
`handle_results` makes: one for each turn of the loop. -/
def handle_results_calls : MI_Operation → Nat
  | [] => 1
  | pull :: operation =>
    if MI_RESULT_OK = pull.result ∧ MI_TRUE = pull.moreRemaining then
      1 + handle_results_calls operation
    else 1

/-- A call that `OMIInterface::Enumerate` makes to the provider for the request number
`k`: the opening of the cursor, a pull on it, its closing. -/
inductive ProviderCall where
  | EnumerateInstances (k : Nat) (first second : List Char)
  | GetInstance (k : Nat)
  | Close (k : Nat)
  deriving DecidableEq, Repr

/-- The provider calls of the `for` loop of `OMIInterface::Enumerate` from request
number `k` on, in the order in which the loop body makes them:
`MI_Session_EnumerateInstances`, the pulls of `handle_results`, `MI_Operation_Close`. -/
def Enumerate_calls_loop (m_Session : MI_Session) (k : Nat) :
    List EnumItem → List ProviderCall
  | [] => []
  | pos :: rest =>
    let operation := m_Session k pos.1 pos.2
    ProviderCall.EnumerateInstances k pos.1 pos.2 ::
      (List.replicate (handle_results_calls operation) (ProviderCall.GetInstance k) ++
        ProviderCall.Close k :: Enumerate_calls_loop m_Session (k + 1) rest)

/-- The provider calls of `OMIInterface::Enumerate`, in order. -/
def Enumerate_calls (m_Session : MI_Session) (enumItems : List EnumItem) :
    List ProviderCall :=
  Enumerate_calls_loop m_Session 0 enumItems

/-- An instance whose class name cannot be read. -/
def unreadable_instance : MI_Instance :=
  .mk MI_RESULT_INVALID_PARAMETER [] MI_RESULT_OK []

/-- The instances that a sequence of pulls hands over: those of the pulls that
succeeded with a non-null instance, in pull order. -/
def pulled_instances (pulls : List MI_Pull) : List MI_Instance :=
  pulls.filterMap (fun pull => if MI_RESULT_OK = pull.instanceResult then pull.pInstance else none)

/-- The cursors that the provider opens for the requests of a list, the first of them
being request number `k`. -/
def request_operations (m_Session : MI_Session) (k : Nat) : List EnumItem → List MI_Operation
  | [] => []
  | pos :: rest => m_Session k pos.1 pos.2 :: request_operations m_Session (k + 1) rest

/-- The operations that are open after a sequence of provider calls, starting from the
open operations `opened`. -/
def open_operations (opened : List Nat) : List ProviderCall → List Nat
  | [] => opened
  | ProviderCall.EnumerateInstances k _ _ :: calls => open_operations (k :: opened) calls
  | ProviderCall.GetInstance _ :: calls => open_operations opened calls
  | ProviderCall.Close k :: calls => open_operations (opened.erase k) calls

/-- The number of closing calls in a sequence of provider calls. -/
def close_count (calls : List ProviderCall) : Nat :=
  calls.countP (fun call => match call with
    | ProviderCall.Close _ => true
    | _ => false)

/-! ## Further sample data -/

/-- A provider whose first cursor yields no instance and whose later cursors yield two
instances, of the classes `X` and `Y`. -/
def none_then_two_session : MI_Session :=
  fun k _ _ =>
    if k = 0 then no_instance_operation
    else [⟨MI_RESULT_OK, some (MI_Instance.named "X"), MI_TRUE, MI_RESULT_OK⟩,
          ⟨MI_RESULT_OK, some (MI_Instance.named "Y"), MI_FALSE, MI_RESULT_OK⟩]

/-- A cursor that yields one instance of class `X`, then fails; the third answer is
never asked for. -/
def failing_operation : MI_Operation :=
  [⟨MI_RESULT_OK, some (MI_Instance.named "X"), MI_TRUE, MI_RESULT_OK⟩,
   ⟨MI_RESULT_INVALID_PARAMETER, none, MI_FALSE, MI_RESULT_INVALID_PARAMETER⟩,
   ⟨MI_RESULT_OK, some (MI_Instance.named "Y"), MI_FALSE, MI_RESULT_OK⟩]

/-- A cursor whose only instance has an unreadable class name. -/
def unreadable_operation : MI_Operation :=
  [⟨MI_RESULT_OK, some unreadable_instance, MI_FALSE, MI_RESULT_OK⟩]

/-- A cursor that yields an instance with an unreadable class name and then an
instance of class `X`. -/
def unreadable_then_named_operation : MI_Operation :=
  [⟨MI_RESULT_OK, some unreadable_instance, MI_TRUE, MI_RESULT_OK⟩,
   ⟨MI_RESULT_OK, some (MI_Instance.named "X"), MI_FALSE, MI_RESULT_OK⟩]

/-! ## Connection handling (`OMIInterface::Connect`, `OMIInterface::Disconnect`) -/

/-- Modelled from the spec: a handle of `MI.h` (`MI_Application`, `MI_Session`,
`MI_OperationOptions`): `none` is the null value of the handle type
(`MI_APPLICATION_NULL`, `MI_SESSION_NULL`, `MI_OPERATIONOPTIONS_NULL`), `some h` a
handle that the provider has filled in. -/
abbrev MI_Handle := Option Nat

/-- The three data members of the class `OMIInterface`. -/
structure OMIInterface where
  m_App : MI_Handle
  m_Session : MI_Handle
  m_Options : MI_Handle
  deriving DecidableEq, Repr

/-- Modelled from the spec: what the provider answers to the four calls of `Connect`:
for the three creating calls the status and the content it leaves in the handle, for
`MI_OperationOptions_SetTimeout` the status. -/
structure ConnectAnswers where
  Application_Initialize : MI_Result × MI_Handle
  Application_NewSession : MI_Result × MI_Handle
  Application_NewOperationOptions : MI_Result × MI_Handle
  OperationOptions_SetTimeout : MI_Result

/-- A call of `Connect` or `Disconnect` to the provider; a releasing call carries the
handle it is given, `SetTimeout` the minutes and seconds of the interval. -/
inductive ConnectCall where
  | Application_Initialize
  | Application_NewSession
  | Application_NewOperationOptions
  | OperationOptions_SetTimeout (minutes seconds : Nat)
  | OperationOptions_Delete (handle : MI_Handle)
  | Session_Close (handle : MI_Handle)
  | Application_Close (handle : MI_Handle)
  deriving DecidableEq, Repr

/-- The method `OMIInterface::Disconnect`: the state after it and the provider calls it
makes. -/
def Disconnect (self : OMIInterface) : OMIInterface × List ConnectCall :=
  ({ m_App := none, m_Session := none, m_Options := none },
    [ConnectCall.OperationOptions_Delete self.m_Options,
     ConnectCall.Session_Close self.m_Session,
     ConnectCall.Application_Close self.m_App])

/-- The nested `if`s of `OMIInterface::Connect` before its final test: the status, the
state and the provider calls made. -/
def Connect_create (provider : ConnectAnswers) (self : OMIInterface) :
    MI_Result × OMIInterface × List ConnectCall :=
  let self1 := { self with m_App := provider.Application_Initialize.2 }
  if MI_RESULT_OK = provider.Application_Initialize.1 then
    let self2 := { self1 with m_Session := provider.Application_NewSession.2 }
    if MI_RESULT_OK = provider.Application_NewSession.1 then
      let self3 := { self2 with m_Options := provider.Application_NewOperationOptions.2 }
      if MI_RESULT_OK = provider.Application_NewOperationOptions.1 then
        (provider.OperationOptions_SetTimeout, self3,
          [ConnectCall.Application_Initialize, ConnectCall.Application_NewSession,
           ConnectCall.Application_NewOperationOptions,
           ConnectCall.OperationOptions_SetTimeout 1 30])
      else
        (provider.Application_NewOperationOptions.1, self3,
          [ConnectCall.Application_Initialize, ConnectCall.Application_NewSession,
           ConnectCall.Application_NewOperationOptions])
    else
      (provider.Application_NewSession.1, self2,
        [ConnectCall.Application_Initialize, ConnectCall.Application_NewSession])
  else
    (provider.Application_Initialize.1, self1, [ConnectCall.Application_Initialize])

/-- The method `OMIInterface::Connect`: the returned status, the state after it and the
provider calls it makes. -/
def Connect (provider : ConnectAnswers) (self : OMIInterface) :
    MI_Result × OMIInterface × List ConnectCall :=
  let created := Connect_create provider self
  if MI_RESULT_OK ≠ created.1 then
    (created.1, (Disconnect created.2.1).1, created.2.2 ++ (Disconnect created.2.1).2)
  else created

/-- Whether a provider call releases a handle. -/
def ConnectCall.releases : ConnectCall → Bool
  | .OperationOptions_Delete _ => true
  | .Session_Close _ => true
  | .Application_Close _ => true
  | _ => false

/-! ## The entry point `wrap_OMIInterface_enumerate` -/

/-- Modelled from the spec: a Ruby `VALUE` of `ruby.h` as far as the entry point
inspects it: an array with its elements, a string with the memory `RSTRING_PTR` points
to, or a value of another kind (a number, `nil`, ...), given by its type number. -/
inductive VALUE where
  | array (elements : List VALUE)
  | string (ptr : List Char)
  | other (type : Nat)

/-- Modelled from the spec: the type numbers `T_ARRAY` and `T_STRING` of `ruby.h`. -/
def T_STRING : Nat := 5

/-- Modelled from the spec: the type number `T_ARRAY` of `ruby.h`. -/
def T_ARRAY : Nat := 7

/-- Modelled from the spec: the type number `T_FIXNUM` of `ruby.h`. -/
def T_FIXNUM : Nat := 21

/-- Modelled from the spec: the macro `TYPE` of `ruby.h`.  A value of another kind has a
type number that is neither `T_ARRAY` nor `T_STRING`. -/
def TYPE : VALUE → Nat
  | .array _ => T_ARRAY
  | .string _ => T_STRING
  | .other type => if type = T_ARRAY ∨ type = T_STRING then 0 else type

/-- Modelled from the spec: the macro `RARRAY_LEN` of `ruby.h`, used on arrays only. -/
def RARRAY_LEN : VALUE → Nat
  | .array elements => elements.length
  | _ => 0

/-- Modelled from the spec: the macro `RARRAY_AREF` of `ruby.h`, used on arrays within
their length only. -/
def RARRAY_AREF : VALUE → Nat → VALUE
  | .array elements, i => elements.getD i (.other 0)
  | _, _ => .other 0

/-- Modelled from the spec: the macro `RSTRING_PTR` of `ruby.h`, used on strings only. -/
def RSTRING_PTR : VALUE → List Char
  | .string ptr => ptr
  | _ => []

/-- The `for` loop of `wrap_OMIInterface_enumerate` over the elements of `items` that
are left: the pairs pushed to `enumItems`. -/
def wrap_enumItems : List VALUE → List EnumItem
  | [] => []
  | item :: rest =>
    if T_ARRAY = TYPE item ∧ 2 = RARRAY_LEN item ∧
        T_STRING = TYPE (RARRAY_AREF item 0) ∧ T_STRING = TYPE (RARRAY_AREF item 1) then
      (RSTRING_PTR (RARRAY_AREF item 0), RSTRING_PTR (RARRAY_AREF item 1)) ::
        wrap_enumItems rest
    else wrap_enumItems rest

/-- The text in the stream of `wrap_OMIInterface_enumerate` before it returns: the
elements `RARRAY_AREF (items, i)` for `i` below `RARRAY_LEN (items)` are inspected and
the pairs found are handed to `Enumerate`; for an argument that is no array the stream
stays empty. -/
def wrap_OMIInterface_enumerate_strm (m_Session : MI_Session) (items : VALUE) : String :=
  if T_ARRAY = TYPE items then
    (Enumerate m_Session
      (wrap_enumItems ((List.range (RARRAY_LEN items)).map (RARRAY_AREF items)))).2
  else ""

/-- The function `wrap_OMIInterface_enumerate`: the Ruby string that
`rb_str_new2 (strm.str ().c_str ())` makes of the stream. -/
def wrap_OMIInterface_enumerate (m_Session : MI_Session) (items : VALUE) : String :=
  c_str (wrap_OMIInterface_enumerate_strm m_Session items).data

/-- The request that a well-formed entry stands for: an entry is well formed when it is
an array of exactly two strings. -/
def well_formed_request : VALUE → Option EnumItem
  | .array [.string first, .string second] => some (first, second)
  | _ => none

/-- The argument `[["A","ns"], ["bad"], 5, ["B","ns2"]]`. -/
def sample_items : VALUE :=
  .array [.array [.string "A".data, .string "ns".data], .array [.string "bad".data],
    .other T_FIXNUM, .array [.string "B".data, .string "ns2".data]]

/-! ## Texts without `NUL` -/

/-- A text without the character `NUL`. -/
def NulFree (s : String) : Prop := NUL ∉ s.data

/-- Whether a text is without `NUL` can be computed. -/
instance NulFree.decidable (s : String) : Decidable (NulFree s) :=
  inferInstanceAs (Decidable (NUL ∉ s.data))

/-! ## Instances as a graph in memory

In the embedding above a value holds the instances it points to, so that a nest of
instances is a finite tree.  In memory the members `reference` and `instance` of an
`MI_Value` are pointers, and nothing keeps an instance from being reachable from
itself.  Here instances live at addresses, a value holds addresses, and the recursive
call `instance_to_json (strm, *(value.instance))` is the parameter `deref` of the
encoders; `Graph.instance_to_json` follows the pointers to a bounded depth. -/

namespace Graph

/-- The address of an `MI_Instance`. -/
abbrev MI_InstancePtr := Nat

/-- Modelled from the spec: the union `MI_Value` of `MI.h` with its two instance
pointers kept as addresses. -/
inductive MI_Value where
  | mk (scalars : MI_Scalars) (reference : MI_InstancePtr) (instance_ : MI_InstancePtr)
      (booleana uint8a sint8a uint16a sint16a uint32a sint32a uint64a sint64a
        real32a real64a char16a datetimea stringa instancea : List MI_Value)

/-- Modelled from the spec: the answer of `MI_Instance_GetElementAt` for one index. -/
structure MI_Element where
  result : MI_Result
  elementName : List Char
  value : MI_Value
  type : MI_Type
  flags : Nat

/-- Modelled from the spec: an `MI_Instance` as the code sees it through its three
accessors. -/
structure MI_Instance where
  classNameResult : MI_Result
  className : List Char
  countResult : MI_Result
  elements : List MI_Element

/-- The instances in memory, by address. -/
abbrev Memory := MI_InstancePtr → MI_Instance

mutual
/-- The function `value_to_json`; `deref p` is the text that the call of
`instance_to_json` on the instance at address `p` writes, `none` when that call does
not return. -/
def value_to_json (deref : MI_InstancePtr → Option String) :
    MI_Value → MI_Type → Option String
  | .mk value reference instance_ booleana uint8a sint8a uint16a sint16a uint32a sint32a
      uint64a sint64a real32a real64a char16a datetimea stringa instancea, type =>
    (if type = MI_BOOLEAN then
       some (if MI_FALSE = value.boolean then JSON_FALSE else JSON_TRUE)
     else if type = MI_UINT8 then some (toString value.uint8)
     else if type = MI_SINT8 then some (toString value.sint8)
     else if type = MI_UINT16 then some (toString value.uint16)
     else if type = MI_SINT16 then some (toString value.sint16)
     else if type = MI_UINT32 then some (toString value.uint32)
     else if type = MI_SINT32 then some (toString value.sint32)
     else if type = MI_UINT64 then some (toString value.uint64)
     else if type = MI_SINT64 then some (toString value.sint64)
     else if type = MI_REAL32 then some value.real32.text
     else if type = MI_REAL64 then some value.real64.text
     else if type = MI_CHAR16 then some (toString value.char16)
     else if type = MI_DATETIME then
       some (if value.datetime.isTimestamp ≠ 0 then timestamp_to_json value.datetime.timestamp
        else interval_to_json value.datetime.interval)
     else if type = MI_STRING then some (string_to_json value.string)
     else if type = MI_REFERENCE then deref reference
     else if type = MI_INSTANCE then deref instance_
     else if type = MI_BOOLEANA then array_to_json deref 0 booleana type
     else if type = MI_UINT8A then array_to_json deref 0 uint8a type
     else if type = MI_SINT8A then array_to_json deref 0 sint8a type
     else if type = MI_UINT16A then array_to_json deref 0 uint16a type
     else if type = MI_SINT16A then array_to_json deref 0 sint16a type
     else if type = MI_UINT32A then array_to_json deref 0 uint32a type
     else if type = MI_SINT32A then array_to_json deref 0 sint32a type
     else if type = MI_UINT64A then array_to_json deref 0 uint64a type
     else if type = MI_SINT64A then array_to_json deref 0 sint64a type
     else if type = MI_REAL32A then array_to_json deref 0 real32a type
     else if type = MI_REAL64A then array_to_json deref 0 real64a type
     else if type = MI_CHAR16A then array_to_json deref 0 char16a type
     else if type = MI_DATETIMEA then array_to_json deref 0 datetimea type
     else if type = MI_STRINGA then array_to_json deref 0 stringa type
     else if type = MI_REFERENCEA ∨ type = MI_INSTANCEA then
       array_to_json deref 0 instancea type
     else some "").map (fun body =>
      (if MI_ARRAY &&& type ≠ 0 then JSON_LIST_START
       else if type ≠ MI_DATETIME then JSON_START_STRING
       else "") ++ body ++
      (if MI_ARRAY &&& type ≠ 0 then JSON_LIST_END
       else if type ≠ MI_DATETIME then JSON_END_STRING
       else ""))
/-- The loop of `array_to_json` from index `i` on. -/
def array_to_json (deref : MI_InstancePtr → Option String) (i : Nat) :
    List MI_Value → MI_Type → Option String
  | [], _ => some ""
  | cell :: cells, type =>
    match value_to_json deref cell (clear_bits type MI_ARRAY),
      array_to_json deref (i + 1) cells type with
    | some text, some texts => some ((if 0 ≠ i then JSON_SEPARATOR else "") ++ text ++ texts)
    | _, _ => none
end

/-- The element loop of `instance_to_json`. -/
def elements_to_json (deref : MI_InstancePtr → Option String) :
    List MI_Element → Option String
  | [] => some ""
  | element :: rest =>
    match (if MI_RESULT_OK = element.result ∧ 0 = MI_FLAG_NULL &&& element.flags then
        (value_to_json deref element.value element.type).map (fun text =>
          JSON_SEPARATOR
            ++ JSON_START_STRING
            ++ string_to_json element.elementName
            ++ JSON_END_STRING ++ JSON_PAIR_TOKEN
            ++ text)
      else some ""),
      elements_to_json deref rest with
    | some text, some texts => some (text ++ texts)
    | _, _ => none

/-- The body of `instance_to_json` for an instance. -/
def instance_body (deref : MI_InstancePtr → Option String) (instance_ : MI_Instance) :
    Option String :=
  if MI_RESULT_OK = instance_.classNameResult ∧ MI_RESULT_OK = instance_.countResult then
    (elements_to_json deref instance_.elements).map (fun texts =>
      JSON_DICT_START
        ++ JSON_START_STRING ++ JSON_CLASS_KEY ++ JSON_END_STRING
        ++ JSON_PAIR_TOKEN ++ JSON_START_STRING ++ c_str instance_.className
        ++ JSON_END_STRING
        ++ texts
        ++ JSON_DICT_END)
  else some ""

/-- The function `instance_to_json` on the instance at an address, with at most `depth`
calls of `instance_to_json` nested in one another: the text written, or `none` when
the calls nest deeper than `depth`. -/
def instance_to_json (memory : Memory) : Nat → MI_InstancePtr → Option String
  | 0, _ => none
  | depth + 1, pInstance =>
    instance_body (fun nested => instance_to_json memory depth nested) (memory pInstance)

/-- The member `reference` of a value. -/
def MI_Value.reference : MI_Value → MI_InstancePtr
  | .mk _ reference _ _ _ _ _ _ _ _ _ _ _ _ _ _ _ _ => reference

/-- The member `instance` of a value. -/
def MI_Value.instance_ : MI_Value → MI_InstancePtr
  | .mk _ _ instance_ _ _ _ _ _ _ _ _ _ _ _ _ _ _ _ => instance_

/-- The cells of the member `instancea` of a value. -/
def MI_Value.instancea : MI_Value → List MI_Value
  | .mk _ _ _ _ _ _ _ _ _ _ _ _ _ _ _ _ _ instancea => instancea

/-- The addresses that `value_to_json` hands to `instance_to_json` for a value and its
tag: the pointer of a reference or embedded instance, the pointers in the cells of an
array of them, none for every other tag. -/
def value_pointers (value : MI_Value) (type : MI_Type) : List MI_InstancePtr :=
  if type = MI_REFERENCE then [value.reference]
  else if type = MI_INSTANCE then [value.instance_]
  else if type = MI_REFERENCEA then value.instancea.map MI_Value.reference
  else if type = MI_INSTANCEA then value.instancea.map MI_Value.instance_
  else []

/-- The addresses that `instance_to_json` follows from an instance: those of its
elements that are read and not null flagged, when its metadata can be read. -/
def instance_pointers (instance_ : MI_Instance) : List MI_InstancePtr :=
  if MI_RESULT_OK = instance_.classNameResult ∧ MI_RESULT_OK = instance_.countResult then
    instance_.elements.flatMap (fun element =>
      if MI_RESULT_OK = element.result ∧ 0 = MI_FLAG_NULL &&& element.flags then
        value_pointers element.value element.type
      else [])
  else []

/-- The value whose member `instance` is the address `p`, all other members zero or
empty. -/
def MI_Value.ofPointer (p : MI_InstancePtr) : MI_Value :=
  .mk MI_Scalars.zero 0 p [] [] [] [] [] [] [] [] [] [] [] [] [] [] []

/-- A memory in which the instance at every address has one element, an embedded
instance at address 0: the instance at address 0 contains itself. -/
def cyclic_memory : Memory :=
  fun _ => ⟨MI_RESULT_OK, "X".data, MI_RESULT_OK,
    [⟨MI_RESULT_OK, "Self".data, MI_Value.ofPointer 0, MI_INSTANCE, 0⟩]⟩

/-- A memory with an instance at address 0 that embeds the instance at address 1, which
has no element. -/
def nested_memory : Memory :=
  fun p =>
    if p = 0 then
      ⟨MI_RESULT_OK, "Outer".data, MI_RESULT_OK,
        [⟨MI_RESULT_OK, "Part".data, MI_Value.ofPointer 1, MI_INSTANCE, 0⟩]⟩
    else ⟨MI_RESULT_OK, "Inner".data, MI_RESULT_OK, []⟩

end Graph

/-! ## Tokens of an escaped text -/

/-- A token of the content of a JSON string: one character other than the double quote
and the backslash, or one of the eight two-character escapes. -/
def json_token (token : List Char) : Prop :=
  (∃ ch : Char, token = [ch] ∧ ch ≠ '\"' ∧ ch ≠ '\\') ∨
  token ∈ [['\\', '\"'], ['\\', '\\'], ['\\', '/'], ['\\', 'b'], ['\\', 'f'], ['\\', 'n'],
    ['\\', 'r'], ['\\', 't']]

/-- Whether a text can stand between the quotes of a JSON string without ending it:
read from the left, a backslash takes the character after it with it and must have
one (no dangling backslash), and no other character is a double quote. -/
def stays_in_string : List Char → Bool
  | [] => true
  | ch :: rest =>
    if ch = '\\' then
      match rest with
      | [] => false
      | _ :: rest1 => stays_in_string rest1
    else if ch = '\"' then false
    else stays_in_string rest

/-- An instance of the class named `a"b`, with readable metadata and no element. -/
def quote_named_instance : MI_Instance :=
  .mk MI_RESULT_OK ['a', '\"', 'b'] MI_RESULT_OK []

/-- A provider that cannot create any operation: every cursor is unusable. -/
def no_operation_session : MI_Session :=
  fun _ _ _ => []

/-! ## Theorems -/

theorem string_to_json_cons (ch : Char) (rest : List Char) (h : ch ≠ NUL) :
    string_to_json (ch :: rest) =
      (char_to_json ch).getD (String.singleton ch) ++ string_to_json rest := by
  cases hc : char_to_json ch <;> simp [string_to_json, h, hc]

theorem char_to_json_eq_none (ch : Char)
    (h : ch ∉ ['\"', '\\', '/', '\x08', '\x0c', '\n', '\r', '\t']) :
    char_to_json ch = none := by
  simp only [List.mem_cons, List.mem_singleton, not_or, List.not_mem_nil, not_false_eq_true,
    and_true] at h
  obtain ⟨h1, h2, h3, h4, h5, h6, h7, h8⟩ := h
  simp [char_to_json, h1, h2, h3, h4, h5, h6, h7, h8]

/-- C8: `char_to_json` gives the two-character escape for each of the eight special
characters and no replacement for any other character, and `string_to_json` writes
the replacement when there is one and the character itself otherwise. -/
theorem char_to_json_spec :
    char_to_json '\"' = some "\\\"" ∧ char_to_json '\\' = some "\\\\" ∧
    char_to_json '/' = some "\\/" ∧ char_to_json '\x08' = some "\\b" ∧
    char_to_json '\x0c' = some "\\f" ∧ char_to_json '\n' = some "\\n" ∧
    char_to_json '\r' = some "\\r" ∧ char_to_json '\t' = some "\\t" ∧
    (∀ ch : Char, ch ∉ ['\"', '\\', '/', '\x08', '\x0c', '\n', '\r', '\t'] →
      char_to_json ch = none) ∧
    (∀ (ch : Char) (replacement : String), char_to_json ch = some replacement →
      replacement.length = 2) ∧
    (∀ (ch : Char) (rest : List Char), ch ≠ NUL → char_to_json ch = none →
      string_to_json (ch :: rest) = String.singleton ch ++ string_to_json rest) ∧
    (∀ (ch : Char) (rest : List Char) (replacement : String),
      char_to_json ch = some replacement →
      string_to_json (ch :: rest) = replacement ++ string_to_json rest) := by
  refine ⟨by decide, by decide, by decide, by decide, by decide, by decide, by decide,
    by decide, char_to_json_eq_none, ?_, ?_, ?_⟩
  · intro ch replacement h
    unfold char_to_json at h
    split_ifs at h <;> simp at h <;> subst h <;> decide
  · intro ch rest h0 h
    rw [string_to_json_cons ch rest h0, h]
    rfl
  · intro ch rest replacement h
    have h0 : ch ≠ NUL := by
      intro hc
      subst hc
      have hn : char_to_json NUL = none := by decide
      rw [hn] at h
      cases h
    rw [string_to_json_cons ch rest h0, h]
    rfl


theorem json_unescape_escaped (ch : Char) (tl : List Char) (h : ch ≠ NUL) :
    json_unescape (((char_to_json ch).getD (String.singleton ch)).data ++ tl) =
      (json_unescape tl).map (List.cons ch) := by
  unfold char_to_json
  split_ifs with h1 h2 h3 h4 h5 h6 h7 h8
  · subst h1; rw [json_unescape.eq_def]; simp [JSON_DOUBLE_QUOTE]
  · subst h2; rw [json_unescape.eq_def]; simp [JSON_BACK_SLASH]
  · subst h3; rw [json_unescape.eq_def]; simp [JSON_FORWARD_SLASH]
  · subst h4; rw [json_unescape.eq_def]; simp [JSON_BACK_SPACE]
  · subst h5; rw [json_unescape.eq_def]; simp [JSON_FORM_FEED]
  · subst h6; rw [json_unescape.eq_def]; simp [JSON_NEWLINE]
  · subst h7; rw [json_unescape.eq_def]; simp [JSON_RETURN]
  · subst h8; rw [json_unescape.eq_def]; simp [JSON_TAB]
  · rw [json_unescape.eq_def]; simp [String.singleton, h2]

/-- C9: for every string without `NUL`, JSON unescaping of the text `string_to_json`
writes gives the string back. -/
theorem json_unescape_string_to_json (s : List Char) (h : NUL ∉ s) :
    json_unescape (string_to_json s).data = some s := by
  induction s with
  | nil => simp [string_to_json, json_unescape]
  | cons ch rest ih =>
    have h0 : ch ≠ NUL := fun hc => h (by simp [hc])
    have hr : NUL ∉ rest := fun hc => h (by simp [hc])
    rw [string_to_json_cons ch rest h0, String.data_append, json_unescape_escaped ch _ h0,
      ih hr]
    rfl

/-- C9, at a string that holds each of the eight special characters. -/
theorem json_unescape_string_to_json_witness :
    NUL ∉ "a\"b\\c/d\x08e\x0cf\ng\rh\ti".data ∧
    json_unescape (string_to_json "a\"b\\c/d\x08e\x0cf\ng\rh\ti".data).data =
      some "a\"b\\c/d\x08e\x0cf\ng\rh\ti".data :=
  ⟨by decide, json_unescape_string_to_json _ (by decide)⟩

theorem interval_to_json_eq (interval : MI_Interval) :
    interval_to_json interval =
      "\x7b\"MI_Type\":\"MI_Interval\",\"days\":\"" ++ toString interval.days ++
      "\",\"hours\":\"" ++ toString interval.hours ++
      "\",\"minutes\":\"" ++ toString interval.minutes ++
      "\",\"seconds\":\"" ++ toString interval.seconds ++
      "\",\"microseconds\":\"" ++ toString interval.microseconds ++ "\"," := by
  simp only [interval_to_json, String.append_assoc]
  rfl

theorem timestamp_to_json_eq (timestamp : MI_Timestamp) :
    timestamp_to_json timestamp =
      "\x7b\"MI_Type\":\"MI_Timestamp\",\"year\":\"" ++ toString timestamp.year ++
      "\",\"month\":\"" ++ toString timestamp.month ++
      "\",\"day\":\"" ++ toString timestamp.day ++
      "\",\"hour\":\"" ++ toString timestamp.hour ++
      "\",\"minute\":\"" ++ toString timestamp.minute ++
      "\",\"second\":\"" ++ toString timestamp.second ++
      "\",\"microseconds\":\"" ++ toString timestamp.microseconds ++
      "\",\"utc\":\"" ++ toString timestamp.utc ++ "\"\x7d" := by
  simp [timestamp_to_json, String.ext_iff, JSON_DICT_START, JSON_START_STRING, JSON_MI_TYPE,
    JSON_END_STRING, JSON_PAIR_TOKEN, JSON_MI_TIMESTAMP, JSON_SEPARATOR, JSON_YEAR, JSON_MONTH,
    JSON_DAY, JSON_HOUR, JSON_MINUTE, JSON_SECOND, JSON_MICROSECONDS, JSON_UTC, JSON_DICT_END]

theorem value_to_json_datetime (v : MI_Value) :
    value_to_json v MI_DATETIME =
      if v.scalars.datetime.isTimestamp ≠ 0 then
        timestamp_to_json v.scalars.datetime.timestamp
      else interval_to_json v.scalars.datetime.interval := by
  cases v
  simp [value_to_json, MI_Value.scalars, MI_DATETIME, MI_ARRAY, MI_BOOLEAN, MI_UINT8,
    MI_SINT8, MI_UINT16, MI_SINT16, MI_UINT32, MI_SINT32, MI_UINT64, MI_SINT64, MI_REAL32,
    MI_REAL64, MI_CHAR16, show (16 &&& 12 : Nat) = 0 from by decide]


/-- C3: for a tag without the array bit and other than date/time, `value_to_json`
writes a double quote, the text of the value and a double quote; the text of a
boolean is `false` exactly for 0 and `true` otherwise, the text of every integer kind
and of a UTF-16 code unit is its decimal text, also for the 8-bit kinds. -/
theorem value_to_json_scalar_quoted (v : MI_Value) (type : MI_Type)
    (harray : MI_ARRAY &&& type = 0) (hdatetime : type ≠ MI_DATETIME) :
    ∃ body : String,
      value_to_json v type = "\"" ++ body ++ "\"" ∧
      (type = MI_BOOLEAN →
        body = if v.scalars.boolean = 0 then "false" else "true") ∧
      (type = MI_UINT8 → body = toString v.scalars.uint8) ∧
      (type = MI_SINT8 → body = toString v.scalars.sint8) ∧
      (type = MI_UINT16 → body = toString v.scalars.uint16) ∧
      (type = MI_SINT16 → body = toString v.scalars.sint16) ∧
      (type = MI_UINT32 → body = toString v.scalars.uint32) ∧
      (type = MI_SINT32 → body = toString v.scalars.sint32) ∧
      (type = MI_UINT64 → body = toString v.scalars.uint64) ∧
      (type = MI_SINT64 → body = toString v.scalars.sint64) ∧
      (type = MI_REAL32 → body = v.scalars.real32.text) ∧
      (type = MI_REAL64 → body = v.scalars.real64.text) ∧
      (type = MI_CHAR16 → body = toString v.scalars.char16) ∧
      (type = MI_STRING → body = string_to_json v.scalars.string) ∧
      (type = MI_REFERENCE → body = instance_to_json v.reference) ∧
      (type = MI_INSTANCE → body = instance_to_json v.instance_) ∧
      (value_to_json (.ofUint8 255) MI_UINT8 = "\"255\"" ∧
        value_to_json (.ofSint8 (-1)) MI_SINT8 = "\"-1\"") := by
  cases v
  rw [value_to_json]
  simp only [harray, hdatetime, ne_eq, not_true_eq_false, not_false_eq_true, if_true, if_false]
  refine ⟨_, rfl, ?_⟩
  simp only [MI_Value.scalars, MI_Value.reference, MI_Value.instance_]
  refine ⟨?_, ?_, ?_, ?_, ?_, ?_, ?_, ?_, ?_, ?_, ?_, ?_, ?_, ?_, ?_, ⟨by decide, by decide⟩⟩ <;>
    intro h <;> subst h <;>
    simp [MI_BOOLEAN, MI_UINT8, MI_SINT8, MI_UINT16, MI_SINT16, MI_UINT32, MI_SINT32,
      MI_UINT64, MI_SINT64, MI_REAL32, MI_REAL64, MI_CHAR16, MI_DATETIME, MI_STRING,
      MI_REFERENCE, MI_INSTANCE, MI_FALSE, JSON_FALSE, JSON_TRUE, eq_comm]


/-- C3, at the unsigned 8-bit value 255. -/
theorem value_to_json_scalar_quoted_witness :
    ∃ body : String,
      value_to_json (.ofUint8 255) MI_UINT8 = "\"" ++ body ++ "\"" ∧ body = "255" := by
  obtain ⟨body, h, -, h8, -⟩ :=
    value_to_json_scalar_quoted (.ofUint8 255) MI_UINT8 (by decide) (by decide)
  exact ⟨body, h, (h8 rfl).trans (by decide)⟩

/-- C4: for the tags embedded-instance and reference, `value_to_json` writes the text
of `instance_to_json` for the nested instance between two double quotes; the nested
object of class `X` comes out as a quote, the object and a quote. -/
theorem value_to_json_instance_quoted :
    (∀ v : MI_Value,
      value_to_json v MI_INSTANCE = "\"" ++ instance_to_json v.instance_ ++ "\"" ∧
      value_to_json v MI_REFERENCE = "\"" ++ instance_to_json v.reference ++ "\"") ∧
    instance_to_json (MI_Instance.named "X") = "\x7b\"ClassName\":\"X\"\x7d" ∧
    value_to_json (.ofInstance (MI_Instance.named "X")) MI_INSTANCE =
      "\"\x7b\"ClassName\":\"X\"\x7d\"" ∧
    value_to_json (.ofInstance (MI_Instance.named "X")) MI_INSTANCE ≠
      instance_to_json (MI_Instance.named "X") := by
  refine ⟨?_, by decide, by decide, by decide⟩
  intro v
  cases v
  constructor <;> rw [value_to_json] <;>
    simp [MI_BOOLEAN, MI_UINT8, MI_SINT8, MI_UINT16, MI_SINT16, MI_UINT32, MI_SINT32,
      MI_UINT64, MI_SINT64, MI_REAL32, MI_REAL64, MI_CHAR16, MI_DATETIME, MI_STRING,
      MI_REFERENCE, MI_INSTANCE, MI_ARRAY, MI_Value.instance_, MI_Value.reference,
      JSON_START_STRING, JSON_END_STRING, show (16 &&& 15 : Nat) = 0 from by decide,
      show (16 &&& 14 : Nat) = 0 from by decide]

/-- C5: for every interval the Date/Time Encoder writes the discriminator and the five
fields in order, each number in decimal, and its last character is the separator after
the microseconds field: the object is not closed. -/
theorem interval_to_json_unclosed :
    (∀ interval : MI_Interval,
      interval_to_json interval =
        "\x7b\"MI_Type\":\"MI_Interval\",\"days\":\"" ++ toString interval.days ++
        "\",\"hours\":\"" ++ toString interval.hours ++
        "\",\"minutes\":\"" ++ toString interval.minutes ++
        "\",\"seconds\":\"" ++ toString interval.seconds ++
        "\",\"microseconds\":\"" ++ toString interval.microseconds ++ "\",") ∧
    value_to_json (.ofDatetime ⟨0, sample_timestamp, sample_interval⟩) MI_DATETIME =
      "\x7b\"MI_Type\":\"MI_Interval\",\"days\":\"1\",\"hours\":\"2\",\"minutes\":\"3\",\"seconds\":\"4\",\"microseconds\":\"5\"," := by
  refine ⟨interval_to_json_eq, by decide⟩

/-- C6: for every date/time value flagged as a timestamp, `value_to_json` writes the
discriminator and the eight fields in order, each in decimal and quoted, in one
object, with no quote around the object. -/
theorem value_to_json_timestamp (v : MI_Value) (h : v.scalars.datetime.isTimestamp ≠ 0) :
    value_to_json v MI_DATETIME =
      "\x7b\"MI_Type\":\"MI_Timestamp\",\"year\":\"" ++
        toString v.scalars.datetime.timestamp.year ++
      "\",\"month\":\"" ++ toString v.scalars.datetime.timestamp.month ++
      "\",\"day\":\"" ++ toString v.scalars.datetime.timestamp.day ++
      "\",\"hour\":\"" ++ toString v.scalars.datetime.timestamp.hour ++
      "\",\"minute\":\"" ++ toString v.scalars.datetime.timestamp.minute ++
      "\",\"second\":\"" ++ toString v.scalars.datetime.timestamp.second ++
      "\",\"microseconds\":\"" ++ toString v.scalars.datetime.timestamp.microseconds ++
      "\",\"utc\":\"" ++ toString v.scalars.datetime.timestamp.utc ++ "\"\x7d" := by
  rw [value_to_json_datetime, if_pos h, timestamp_to_json_eq]

/-- C6, at the timestamp of 19 August 2015, 10:57:14. -/
theorem value_to_json_timestamp_witness :
    value_to_json (.ofDatetime ⟨1, sample_timestamp, sample_interval⟩) MI_DATETIME =
      "\x7b\"MI_Type\":\"MI_Timestamp\",\"year\":\"2015\",\"month\":\"8\",\"day\":\"19\",\"hour\":\"10\",\"minute\":\"57\",\"second\":\"14\",\"microseconds\":\"0\",\"utc\":\"0\"\x7d" :=
  (value_to_json_timestamp (.ofDatetime ⟨1, sample_timestamp, sample_interval⟩)
    (by decide)).trans (by decide)


theorem elements_to_json_eq (elements : List MI_Element) :
    elements_to_json elements = concat_texts (elements.map MI_Element.text) := by
  induction elements with
  | nil => simp [elements_to_json, concat_texts]
  | cons e rest ih =>
    cases e with
    | mk result elementName value type flags =>
      rw [elements_to_json, ih, List.map_cons, concat_texts, MI_Element.text]
      by_cases h : result = MI_RESULT_OK ∧ MI_FLAG_NULL &&& flags = 0
      · have h1 : MI_RESULT_OK = result ∧ 0 = MI_FLAG_NULL &&& flags := ⟨h.1.symm, h.2.symm⟩
        rw [if_pos h, if_pos h1]
        simp only [JSON_SEPARATOR, JSON_START_STRING, JSON_END_STRING, JSON_PAIR_TOKEN,
          String.append_assoc]
        rfl
      · have h1 : ¬(MI_RESULT_OK = result ∧ 0 = MI_FLAG_NULL &&& flags) :=
          fun h2 => h ⟨h2.1.symm, h2.2.symm⟩
        rw [if_neg h, if_neg h1]

/-- C2: an instance whose class name and element count can be read is written as the
opening brace and the `ClassName` field, then for each element in order the text of
that element (nothing when it is null flagged, else a comma, the quoted escaped name,
a colon and `value_to_json` of the value), then the closing brace; an instance whose
class name or element count cannot be read is written as nothing. -/
theorem instance_to_json_spec (classNameResult : MI_Result) (className : List Char)
    (countResult : MI_Result) (elements : List MI_Element) :
    instance_to_json (.mk classNameResult className countResult elements) =
      (if classNameResult = MI_RESULT_OK ∧ countResult = MI_RESULT_OK then
        "\x7b\"ClassName\":\"" ++ c_str className ++ "\"" ++
          concat_texts (elements.map MI_Element.text) ++ "\x7d"
      else "") ∧
    instance_to_json sample_instance = "\x7b\"ClassName\":\"X\",\"A\":\"1\"\x7d" := by
  refine ⟨?_, by decide⟩
  rw [instance_to_json, elements_to_json_eq]
  by_cases h : classNameResult = MI_RESULT_OK ∧ countResult = MI_RESULT_OK
  · have h1 : MI_RESULT_OK = classNameResult ∧ MI_RESULT_OK = countResult :=
      ⟨h.1.symm, h.2.symm⟩
    rw [if_pos h, if_pos h1]
    simp only [JSON_DICT_START, JSON_DICT_END, JSON_CLASS_KEY, JSON_START_STRING,
      JSON_END_STRING, JSON_PAIR_TOKEN, String.append_assoc]
    rfl
  · have h1 : ¬(MI_RESULT_OK = classNameResult ∧ MI_RESULT_OK = countResult) :=
      fun h2 => h ⟨h2.1.symm, h2.2.symm⟩
    rw [if_neg h, if_neg h1]

theorem intercalate_go_eq (sep acc : String) (texts : List String) :
    String.intercalate.go acc sep texts =
      acc ++ concat_texts (texts.map (fun t => sep ++ t)) := by
  induction texts generalizing acc with
  | nil => simp [String.intercalate.go, concat_texts]
  | cons t ts ih =>
    rw [String.intercalate.go, ih, List.map_cons, concat_texts]
    simp only [String.append_assoc]

theorem array_to_json_succ (i : Nat) (cells : List MI_Value) (type : MI_Type) :
    array_to_json (i + 1) cells type =
      concat_texts (cells.map
        (fun cell => "," ++ value_to_json cell (clear_bits type MI_ARRAY))) := by
  induction cells generalizing i with
  | nil => simp [array_to_json, concat_texts]
  | cons cell rest ih =>
    rw [array_to_json, ih, List.map_cons, concat_texts]
    simp [JSON_SEPARATOR]

theorem array_to_json_zero (cells : List MI_Value) (type : MI_Type) :
    array_to_json 0 cells type =
      String.intercalate ","
        (cells.map (fun cell => value_to_json cell (clear_bits type MI_ARRAY))) := by
  cases cells with
  | nil => simp [array_to_json, String.intercalate]
  | cons cell rest =>
    rw [array_to_json, array_to_json_succ, List.map_cons, String.intercalate,
      intercalate_go_eq, List.map_map]
    simp
    rfl

/-- C7: for each of the sixteen array tags, `value_to_json` writes an opening bracket,
the encodings of the cells of the array member in index order, each produced by
`value_to_json` with the array bit of the tag cleared, with one comma between two
cells and none after the last, and a closing bracket; an array without cells is
written as `[]`. -/
theorem value_to_json_array (v : MI_Value) (type : MI_Type)
    (hlo : MI_BOOLEANA ≤ type) (hhi : type ≤ MI_INSTANCEA) :
    value_to_json v type =
      "[" ++ String.intercalate ","
        ((v.array_member type).map
          (fun cell => value_to_json cell (clear_bits type MI_ARRAY))) ++ "]" ∧
    clear_bits type MI_ARRAY = type - 16 ∧
    (v.array_member type = [] → value_to_json v type = "[]") := by
  have key : value_to_json v type =
      "[" ++ String.intercalate ","
        ((v.array_member type).map
          (fun cell => value_to_json cell (clear_bits type MI_ARRAY))) ++ "]" := by
    cases v
    unfold MI_BOOLEANA at hlo
    unfold MI_INSTANCEA at hhi
    rw [value_to_json, MI_Value.array_member]
    simp only [array_to_json_zero]
    interval_cases type <;>
      simp [MI_BOOLEAN, MI_UINT8, MI_SINT8, MI_UINT16, MI_SINT16, MI_UINT32, MI_SINT32,
        MI_UINT64, MI_SINT64, MI_REAL32, MI_REAL64, MI_CHAR16, MI_DATETIME, MI_STRING,
        MI_REFERENCE, MI_INSTANCE, MI_BOOLEANA, MI_UINT8A, MI_SINT8A, MI_UINT16A,
        MI_SINT16A, MI_UINT32A, MI_SINT32A, MI_UINT64A, MI_SINT64A, MI_REAL32A, MI_REAL64A,
        MI_CHAR16A, MI_DATETIMEA, MI_STRINGA, MI_REFERENCEA, MI_INSTANCEA, MI_ARRAY,
        JSON_LIST_START, JSON_LIST_END]
  refine ⟨key, ?_, ?_⟩
  · unfold MI_BOOLEANA at hlo
    unfold MI_INSTANCEA at hhi
    unfold clear_bits MI_ARRAY
    interval_cases type <;> decide
  · intro h
    rw [key, h, List.map_nil]
    decide

/-- C7, at the unsigned 32-bit array with the cells 1, 2 and 3. -/
theorem value_to_json_array_witness :
    value_to_json (.ofUint32A [1, 2, 3]) MI_UINT32A = "[\"1\",\"2\",\"3\"]" :=
  (value_to_json_array (.ofUint32A [1, 2, 3]) MI_UINT32A (by decide) (by decide)).1.trans
    (by decide)

/-- C1: with two requests of which the first yields one instance and the second
yields none, `Enumerate` writes a comma directly before the closing bracket. -/
theorem Enumerate_trailing_comma :
    (Enumerate one_then_none_session
      [("root/scx".data, "A".data), ("root/scx".data, "B".data)]).2 =
      "[\x7b\"ClassName\":\"X\"\x7d,]" := by
  decide

theorem digitChar_facts (d : Nat) (h : d < 10) :
    (Nat.digitChar d).toNat - 48 = d ∧ (Nat.digitChar d).isDigit = true ∧
      Nat.digitChar d ≠ '-' := by
  interval_cases d <;> decide

theorem toDigitsCore_fold (fuel : Nat) : ∀ (n : Nat) (ds : List Char), n < fuel →
    (Nat.toDigitsCore 10 fuel n ds).foldl (fun a c => a * 10 + (c.toNat - 48)) 0 =
      ds.foldl (fun a c => a * 10 + (c.toNat - 48)) n := by
  induction fuel with
  | zero => intro n ds h; omega
  | succ fuel ih =>
    intro n ds h
    have hd := (digitChar_facts (n % 10) (Nat.mod_lt _ (by decide))).1
    simp only [Nat.toDigitsCore]
    split_ifs with h0
    · simp only [List.foldl_cons, hd]
      congr 1
      omega
    · rw [ih (n / 10) _ (by omega)]
      simp only [List.foldl_cons, hd]
      congr 1
      omega

theorem toDigitsCore_all (fuel : Nat) : ∀ (n : Nat) (ds : List Char),
    ds.all Char.isDigit = true → (Nat.toDigitsCore 10 fuel n ds).all Char.isDigit = true := by
  induction fuel with
  | zero => intro n ds h; simpa [Nat.toDigitsCore] using h
  | succ fuel ih =>
    intro n ds h
    have hd := (digitChar_facts (n % 10) (Nat.mod_lt _ (by decide))).2.1
    simp only [Nat.toDigitsCore]
    split_ifs with h0
    · simp only [List.all_cons, hd, h, Bool.and_self]
    · exact ih _ _ (by simp only [List.all_cons, hd, h, Bool.and_self])

theorem toDigitsCore_ne_nil (fuel : Nat) : ∀ (n : Nat) (ds : List Char),
    (0 < fuel ∨ ds ≠ []) → Nat.toDigitsCore 10 fuel n ds ≠ [] := by
  induction fuel with
  | zero => intro n ds h; simpa [Nat.toDigitsCore] using h
  | succ fuel ih =>
    intro n ds _
    simp only [Nat.toDigitsCore]
    split_ifs with h0
    · simp
    · exact ih _ _ (Or.inr (by simp))

theorem parse_unsigned_mk_toDigits (n : Nat) :
    parse_unsigned (String.mk (Nat.toDigits 10 n)) = some n := by
  unfold parse_unsigned
  have h1 : Nat.toDigits 10 n ≠ [] := toDigitsCore_ne_nil _ _ _ (Or.inl (Nat.succ_pos n))
  have h2 : (Nat.toDigits 10 n).all Char.isDigit = true := toDigitsCore_all _ _ _ rfl
  have h3 := toDigitsCore_fold (n + 1) n [] (Nat.lt_succ_self n)
  rw [if_pos ⟨h1, h2⟩]
  exact congrArg some h3

theorem parse_unsigned_toString (n : Nat) : parse_unsigned (toString n) = some n :=
  parse_unsigned_mk_toDigits n

theorem toDigits_head_ne_minus (n : Nat) :
    ∃ c rest, Nat.toDigits 10 n = c :: rest ∧ c ≠ '-' := by
  have h1 : Nat.toDigits 10 n ≠ [] := toDigitsCore_ne_nil _ _ _ (Or.inl (Nat.succ_pos n))
  have h2 : (Nat.toDigits 10 n).all Char.isDigit = true := toDigitsCore_all _ _ _ rfl
  cases h : Nat.toDigits 10 n with
  | nil => exact absurd h h1
  | cons c rest =>
    refine ⟨c, rest, rfl, ?_⟩
    rw [h] at h2
    simp only [List.all_cons, Bool.and_eq_true] at h2
    intro hc
    rw [hc] at h2
    exact absurd h2.1 (by decide)

theorem parse_signed_toString (i : Int) : parse_signed (toString i) = some i := by
  cases i with
  | ofNat m =>
    obtain ⟨c, rest, h, hc⟩ := toDigits_head_ne_minus m
    have hs : (toString (Int.ofNat m)).data = c :: rest := h
    unfold parse_signed
    rw [hs]
    simp only [hc, if_false]
    have : toString (Int.ofNat m) = toString m := rfl
    rw [this, parse_unsigned_toString]
    rfl
  | negSucc m =>
    have hs : (toString (Int.negSucc m)).data = '-' :: Nat.toDigits 10 (m + 1) := rfl
    unfold parse_signed
    rw [hs]
    simp only [if_true, parse_unsigned_mk_toDigits]
    rfl

theorem between_quotes_quoted (body : String) :
    between_quotes ("\"" ++ body ++ "\"") = some body := by
  unfold between_quotes
  have h : ("\"" ++ body ++ "\"").data = '\"' :: (body.data ++ ['\"']) := by
    simp [String.data_append]
  rw [h]
  simp


theorem value_to_json_numeric (v : MI_Value) :
    value_to_json v MI_BOOLEAN =
      "\"" ++ (if MI_FALSE = v.scalars.boolean then JSON_FALSE else JSON_TRUE) ++ "\"" ∧
    value_to_json v MI_UINT8 = "\"" ++ toString v.scalars.uint8 ++ "\"" ∧
    value_to_json v MI_SINT8 = "\"" ++ toString v.scalars.sint8 ++ "\"" ∧
    value_to_json v MI_UINT16 = "\"" ++ toString v.scalars.uint16 ++ "\"" ∧
    value_to_json v MI_SINT16 = "\"" ++ toString v.scalars.sint16 ++ "\"" ∧
    value_to_json v MI_UINT32 = "\"" ++ toString v.scalars.uint32 ++ "\"" ∧
    value_to_json v MI_SINT32 = "\"" ++ toString v.scalars.sint32 ++ "\"" ∧
    value_to_json v MI_UINT64 = "\"" ++ toString v.scalars.uint64 ++ "\"" ∧
    value_to_json v MI_SINT64 = "\"" ++ toString v.scalars.sint64 ++ "\"" ∧
    value_to_json v MI_REAL32 = "\"" ++ v.scalars.real32.text ++ "\"" ∧
    value_to_json v MI_REAL64 = "\"" ++ v.scalars.real64.text ++ "\"" ∧
    value_to_json v MI_CHAR16 = "\"" ++ toString v.scalars.char16 ++ "\"" := by
  cases v
  refine ⟨?_, ?_, ?_, ?_, ?_, ?_, ?_, ?_, ?_, ?_, ?_, ?_⟩ <;> rw [value_to_json] <;>
    simp only [MI_Value.scalars, MI_BOOLEAN, MI_UINT8, MI_SINT8, MI_UINT16, MI_SINT16,
      MI_UINT32, MI_SINT32, MI_UINT64, MI_SINT64, MI_REAL32, MI_REAL64, MI_CHAR16,
      MI_DATETIME, MI_ARRAY, JSON_START_STRING, JSON_END_STRING] <;>
    simp only [Nat.reduceEqDiff, if_true, if_false, ne_eq, not_true_eq_false,
      not_false_eq_true, OfNat.ofNat_ne_zero, OfNat.zero_ne_ofNat, OfNat.ofNat_ne_one,
      OfNat.one_ne_ofNat, one_ne_zero, zero_ne_one,
      show (16 &&& 0 : Nat) = 0 from by decide, show (16 &&& 1 : Nat) = 0 from by decide,
      show (16 &&& 2 : Nat) = 0 from by decide, show (16 &&& 3 : Nat) = 0 from by decide,
      show (16 &&& 4 : Nat) = 0 from by decide, show (16 &&& 5 : Nat) = 0 from by decide,
      show (16 &&& 6 : Nat) = 0 from by decide, show (16 &&& 7 : Nat) = 0 from by decide,
      show (16 &&& 8 : Nat) = 0 from by decide, show (16 &&& 9 : Nat) = 0 from by decide,
      show (16 &&& 10 : Nat) = 0 from by decide, show (16 &&& 11 : Nat) = 0 from by decide]

/-- C10 (amended): for a boolean that is `MI_FALSE` or `MI_TRUE`, for every integer of
the eight integer kinds and for every UTF-16 code unit, parsing the text that
`value_to_json` writes between the two quotes gives the value back. -/
theorem scalar_round_trip (v : MI_Value)
    (hbool : v.scalars.boolean = MI_FALSE ∨ v.scalars.boolean = MI_TRUE) :
    (between_quotes (value_to_json v MI_BOOLEAN)).bind parse_boolean =
      some v.scalars.boolean ∧
    (between_quotes (value_to_json v MI_UINT8)).bind parse_unsigned = some v.scalars.uint8 ∧
    (between_quotes (value_to_json v MI_SINT8)).bind parse_signed = some v.scalars.sint8 ∧
    (between_quotes (value_to_json v MI_UINT16)).bind parse_unsigned = some v.scalars.uint16 ∧
    (between_quotes (value_to_json v MI_SINT16)).bind parse_signed = some v.scalars.sint16 ∧
    (between_quotes (value_to_json v MI_UINT32)).bind parse_unsigned = some v.scalars.uint32 ∧
    (between_quotes (value_to_json v MI_SINT32)).bind parse_signed = some v.scalars.sint32 ∧
    (between_quotes (value_to_json v MI_UINT64)).bind parse_unsigned = some v.scalars.uint64 ∧
    (between_quotes (value_to_json v MI_SINT64)).bind parse_signed = some v.scalars.sint64 ∧
    (between_quotes (value_to_json v MI_CHAR16)).bind parse_unsigned =
      some v.scalars.char16 := by
  obtain ⟨h0, h1, h2, h3, h4, h5, h6, h7, h8, -, -, h11⟩ := value_to_json_numeric v
  rw [h0, h1, h2, h3, h4, h5, h6, h7, h8, h11]
  simp only [between_quotes_quoted, Option.some_bind, parse_unsigned_toString,
    parse_signed_toString, and_true]
  rcases hbool with h | h <;> rw [h] <;> decide

/-- C10 (amended), at a value with boolean 1, unsigned 8-bit 255 and signed 8-bit -1. -/
theorem scalar_round_trip_witness :
    (between_quotes (value_to_json
        (.ofScalars { MI_Scalars.zero with boolean := 1, uint8 := 255, sint8 := -1 })
        MI_BOOLEAN)).bind parse_boolean = some 1 ∧
    (between_quotes (value_to_json
        (.ofScalars { MI_Scalars.zero with boolean := 1, uint8 := 255, sint8 := -1 })
        MI_UINT8)).bind parse_unsigned = some 255 ∧
    (between_quotes (value_to_json
        (.ofScalars { MI_Scalars.zero with boolean := 1, uint8 := 255, sint8 := -1 })
        MI_SINT8)).bind parse_signed = some (-1) :=
  have h := scalar_round_trip
    (.ofScalars { MI_Scalars.zero with boolean := 1, uint8 := 255, sint8 := -1 })
    (Or.inr rfl)
  ⟨h.1, h.2.1, h.2.2.1⟩

/-- C10: the double precision values 1234567 and 1234568 are written as the same text,
so no parser gives every real back from the text `value_to_json` writes for it; and a
boolean byte 2 is written as `true`, which reads back as 1. -/
theorem real_round_trip_fails :
    value_to_json (.ofReal64 1234567) MI_REAL64 = "\"1.23457e+06\"" ∧
    value_to_json (.ofReal64 1234568) MI_REAL64 = "\"1.23457e+06\"" ∧
    (¬ ∃ parse : String → Option ℚ, ∀ v : MI_Value,
      (between_quotes (value_to_json v MI_REAL64)).bind parse = v.scalars.real64.toRat) ∧
    (between_quotes (value_to_json (.ofScalars { MI_Scalars.zero with boolean := 2 })
      MI_BOOLEAN)).bind parse_boolean = some 1 := by
  have ha : value_to_json (.ofReal64 1234567) MI_REAL64 = "\"1.23457e+06\"" := by decide
  have hb : value_to_json (.ofReal64 1234568) MI_REAL64 = "\"1.23457e+06\"" := by decide
  refine ⟨ha, hb, ?_, by decide⟩
  rintro ⟨parse, h⟩
  have h1 := h (.ofReal64 1234567)
  have h2 := h (.ofReal64 1234568)
  rw [ha] at h1
  rw [hb, h1] at h2
  simp [MI_Value.ofReal64, MI_Value.ofScalars, MI_Value.scalars, MI_Scalars.zero,
    MI_Real.toRat] at h2

/-- C11 (amended): for every tag that is none of the 32 recognized tags the `switch`
writes nothing and only the wrapper is written: two double quotes when the tag lacks
the array bit, an empty pair of brackets when it has it. -/
theorem value_to_json_unrecognized (v : MI_Value) (type : MI_Type) (h : MI_INSTANCEA < type) :
    value_to_json v type = if MI_ARRAY &&& type ≠ 0 then "[]" else "\"\"" := by
  cases v
  have h31 : (31 : Nat) < type := h
  rw [value_to_json]
  have e : ∀ n : Nat, n < 32 → ¬(type = n) := fun n hn hc => by
    have hc1 : @Eq Nat type n := hc
    omega
  simp only [MI_BOOLEAN, MI_UINT8, MI_SINT8, MI_UINT16, MI_SINT16, MI_UINT32, MI_SINT32,
    MI_UINT64, MI_SINT64, MI_REAL32, MI_REAL64, MI_CHAR16, MI_DATETIME, MI_STRING,
    MI_REFERENCE, MI_INSTANCE, MI_BOOLEANA, MI_UINT8A, MI_SINT8A, MI_UINT16A,
    MI_SINT16A, MI_UINT32A, MI_SINT32A, MI_UINT64A, MI_SINT64A, MI_REAL32A, MI_REAL64A,
    MI_CHAR16A, MI_DATETIMEA, MI_STRINGA, MI_REFERENCEA, MI_INSTANCEA,
    e 0 (by decide), e 1 (by decide), e 2 (by decide), e 3 (by decide), e 4 (by decide),
    e 5 (by decide), e 6 (by decide), e 7 (by decide), e 8 (by decide), e 9 (by decide),
    e 10 (by decide), e 11 (by decide), e 12 (by decide), e 13 (by decide), e 14 (by decide),
    e 15 (by decide), e 16 (by decide), e 17 (by decide), e 18 (by decide), e 19 (by decide),
    e 20 (by decide), e 21 (by decide), e 22 (by decide), e 23 (by decide), e 24 (by decide),
    e 25 (by decide), e 26 (by decide), e 27 (by decide), e 28 (by decide), e 29 (by decide),
    e 30 (by decide), e 31 (by decide), or_self, if_false, ne_eq, not_false_eq_true, if_true]
  by_cases ha : MI_ARRAY &&& type = 0
  · simp only [ha, not_true_eq_false, if_false]
    decide
  · simp only [ha, not_false_eq_true, if_true]
    decide

/-- C11 (amended), at the tags 32 (no array bit) and 48 (array bit). -/
theorem value_to_json_unrecognized_witness :
    value_to_json (.ofUint32 7) 32 = "\"\"" ∧ value_to_json (.ofUint32 7) 48 = "[]" :=
  ⟨(value_to_json_unrecognized (.ofUint32 7) 32 (by decide)).trans (by decide),
   (value_to_json_unrecognized (.ofUint32 7) 48 (by decide)).trans (by decide)⟩

/-- C11: for the unrecognized tag 32 `value_to_json` writes two double quotes, not
nothing. -/
theorem value_to_json_unrecognized_not_empty :
    value_to_json (.ofUint32 7) 32 ≠ "" := by
  decide

theorem Enumerate_loop_eq (m_Session : MI_Session) (enumItems : List EnumItem) :
    ∀ (k : Nat) (addSeparator : Bool),
    Enumerate_loop m_Session k addSeparator enumItems =
      concat_texts (List.zipWith
        (fun (separator : Bool) (operation : MI_Operation) =>
          (if separator then "," else "") ++ (handle_results operation).1)
        (addSeparator :: (request_operations m_Session k enumItems).map
          (fun operation => decide (0 < (handle_results operation).2)))
        (request_operations m_Session k enumItems)) := by
  induction enumItems with
  | nil => intro k b; simp [Enumerate_loop, request_operations, concat_texts]
  | cons pos rest ih =>
    intro k b
    rw [Enumerate_loop, request_operations, List.map_cons, List.zipWith_cons_cons,
      concat_texts, ih]
    simp only [JSON_SEPARATOR, String.append_assoc]

/-- C12: the text of `Enumerate` is the opening bracket, then for each request in
order a comma exactly when the request is not the first and the collector returned a
count greater than 0 for the request before it, followed by the collector output of the
request, then the closing bracket; with a first request that yields nothing and a
second that yields two instances the document is the two objects with one comma
between them. -/
theorem Enumerate_separators (m_Session : MI_Session) (enumItems : List EnumItem) :
    (Enumerate m_Session enumItems).2 =
      "[" ++ concat_texts (List.zipWith
        (fun (separator : Bool) (operation : MI_Operation) =>
          (if separator then "," else "") ++ (handle_results operation).1)
        (false :: (request_operations m_Session 0 enumItems).map
          (fun operation => decide (0 < (handle_results operation).2)))
        (request_operations m_Session 0 enumItems)) ++ "]" ∧
    (Enumerate none_then_two_session
      [("root/scx".data, "A".data), ("root/scx".data, "B".data)]).2 =
      "[\x7b\"ClassName\":\"X\"\x7d,\x7b\"ClassName\":\"Y\"\x7d]" := by
  refine ⟨?_, by decide⟩
  simp only [Enumerate, Enumerate_loop_eq, JSON_LIST_START, JSON_LIST_END]

theorem handle_pull_eq (count : Nat) (pull : MI_Pull) :
    handle_pull count pull =
      match (if MI_RESULT_OK = pull.instanceResult then pull.pInstance else none) with
      | some pInstance =>
        ((if 0 < count then "," else "") ++ instance_to_json pInstance, count + 1)
      | none => ("", count) := by
  unfold handle_pull
  cases pull.pInstance <;> by_cases h : MI_RESULT_OK = pull.instanceResult <;>
    simp [h, JSON_SEPARATOR]

theorem handle_results_loop_pos (after : List MI_Pull) (stop : MI_Pull)
    (hstop : ¬(MI_RESULT_OK = stop.result ∧ MI_TRUE = stop.moreRemaining))
    (before : List MI_Pull) :
    (∀ p ∈ before, MI_RESULT_OK = p.result ∧ MI_TRUE = p.moreRemaining) →
    ∀ count : Nat, 0 < count →
    handle_results_loop count (before ++ stop :: after) =
      (concat_texts ((pulled_instances (before ++ [stop])).map
          (fun pInstance => "," ++ instance_to_json pInstance)),
        count + (pulled_instances (before ++ [stop])).length) := by
  induction before with
  | nil =>
    intro _ count hc
    rw [List.nil_append, handle_results_loop, if_neg hstop, handle_pull_eq]
    simp only [List.nil_append, pulled_instances, List.filterMap_cons, List.filterMap_nil]
    cases (if MI_RESULT_OK = stop.instanceResult then stop.pInstance else none) <;>
      simp [concat_texts, hc]
  | cons p rest ih =>
    intro hb count hc
    have hp := hb p (List.mem_cons_self _ _)
    have hrest : ∀ q ∈ rest, MI_RESULT_OK = q.result ∧ MI_TRUE = q.moreRemaining :=
      fun q hq => hb q (List.mem_cons_of_mem _ hq)
    rw [List.cons_append, handle_results_loop, if_pos hp, handle_pull_eq]
    simp only [List.cons_append, pulled_instances, List.filterMap_cons]
    cases (if MI_RESULT_OK = p.instanceResult then p.pInstance else none) with
    | none =>
      have h := ih hrest count hc
      simp only [pulled_instances] at h
      simp [h]
    | some pInstance =>
      have h := ih hrest (count + 1) (Nat.succ_pos count)
      simp only [pulled_instances] at h
      simp [h, concat_texts, hc, Nat.add_assoc, Nat.add_comm 1]

theorem intercalate_cons (sep t : String) (ts : List String) :
    String.intercalate sep (t :: ts) = t ++ concat_texts (ts.map (fun x => sep ++ x)) := by
  rw [String.intercalate, intercalate_go_eq]

theorem handle_results_loop_zero (after : List MI_Pull) (stop : MI_Pull)
    (hstop : ¬(MI_RESULT_OK = stop.result ∧ MI_TRUE = stop.moreRemaining))
    (before : List MI_Pull) :
    (∀ p ∈ before, MI_RESULT_OK = p.result ∧ MI_TRUE = p.moreRemaining) →
    handle_results_loop 0 (before ++ stop :: after) =
      (String.intercalate ","
          ((pulled_instances (before ++ [stop])).map instance_to_json),
        (pulled_instances (before ++ [stop])).length) := by
  induction before with
  | nil =>
    intro _
    rw [List.nil_append, handle_results_loop, if_neg hstop, handle_pull_eq]
    simp only [List.nil_append, pulled_instances, List.filterMap_cons, List.filterMap_nil]
    cases (if MI_RESULT_OK = stop.instanceResult then stop.pInstance else none) <;>
      simp [String.intercalate, String.intercalate.go]
  | cons p rest ih =>
    intro hb
    have hp := hb p (List.mem_cons_self _ _)
    have hrest : ∀ q ∈ rest, MI_RESULT_OK = q.result ∧ MI_TRUE = q.moreRemaining :=
      fun q hq => hb q (List.mem_cons_of_mem _ hq)
    rw [List.cons_append, handle_results_loop, if_pos hp, handle_pull_eq]
    simp only [List.cons_append, pulled_instances, List.filterMap_cons]
    cases (if MI_RESULT_OK = p.instanceResult then p.pInstance else none) with
    | none =>
      have h := ih hrest
      simp only [pulled_instances] at h
      simp [h]
    | some pInstance =>
      have h := handle_results_loop_pos after stop hstop rest hrest 1 Nat.one_pos
      simp only [pulled_instances] at h
      simp [h, intercalate_cons, List.map_map, Function.comp_def, Nat.add_comm 1]

theorem handle_results_calls_eq (after : List MI_Pull) (stop : MI_Pull)
    (hstop : ¬(MI_RESULT_OK = stop.result ∧ MI_TRUE = stop.moreRemaining))
    (before : List MI_Pull) :
    (∀ p ∈ before, MI_RESULT_OK = p.result ∧ MI_TRUE = p.moreRemaining) →
    handle_results_calls (before ++ stop :: after) = before.length + 1 := by
  induction before with
  | nil => intro _; rw [List.nil_append, handle_results_calls, if_neg hstop]; rfl
  | cons p rest ih =>
    intro hb
    have hp := hb p (List.mem_cons_self _ _)
    have hrest : ∀ q ∈ rest, MI_RESULT_OK = q.result ∧ MI_TRUE = q.moreRemaining :=
      fun q hq => hb q (List.mem_cons_of_mem _ hq)
    rw [List.cons_append, handle_results_calls, if_pos hp, ih hrest, List.length_cons]
    omega

/-- C13: for a cursor whose only instance has an unreadable class name,
`handle_results` writes nothing and returns the count 1. -/
theorem handle_results_counts_unwritten :
    instance_to_json unreadable_instance = "" ∧
    handle_results unreadable_operation = ("", 1) := by
  decide

/-- C14: when the pulls before a pull all report success with more results pending and
that pull reports a non-success result or nothing pending, `handle_results` makes
exactly these pulls and no further one, whatever the provider would answer next, and
writes the encodings of the instances pulled successfully up to and including that
pull, in pull order with one comma between two of them; its count is their number. -/
theorem handle_results_stops (before after : List MI_Pull) (stop : MI_Pull)
    (hbefore : ∀ p ∈ before, MI_RESULT_OK = p.result ∧ MI_TRUE = p.moreRemaining)
    (hstop : ¬(MI_RESULT_OK = stop.result ∧ MI_TRUE = stop.moreRemaining)) :
    handle_results_calls (before ++ stop :: after) = before.length + 1 ∧
    (handle_results (before ++ stop :: after)).1 =
      String.intercalate ","
        ((pulled_instances (before ++ [stop])).map instance_to_json) ∧
    (handle_results (before ++ stop :: after)).2 =
      (pulled_instances (before ++ [stop])).length := by
  refine ⟨handle_results_calls_eq after stop hstop before hbefore, ?_, ?_⟩ <;>
    rw [handle_results, handle_results_loop_zero after stop hstop before hbefore]

/-- C14, at a cursor that fails after yielding one instance. -/
theorem handle_results_stops_witness :
    handle_results_calls failing_operation = 2 ∧
    (handle_results failing_operation).1 = "\x7b\"ClassName\":\"X\"\x7d" ∧
    (handle_results failing_operation).2 = 1 ∧
    (Enumerate (fun _ _ _ => failing_operation) [("root/scx".data, "A".data)]).2 =
      "[\x7b\"ClassName\":\"X\"\x7d]" := by
  have h := handle_results_stops
    [⟨MI_RESULT_OK, some (MI_Instance.named "X"), MI_TRUE, MI_RESULT_OK⟩]
    [⟨MI_RESULT_OK, some (MI_Instance.named "Y"), MI_FALSE, MI_RESULT_OK⟩]
    ⟨MI_RESULT_INVALID_PARAMETER, none, MI_FALSE, MI_RESULT_INVALID_PARAMETER⟩
    (by decide) (by decide)
  exact ⟨h.1, h.2.1.trans (by decide), h.2.2.trans (by decide), by decide⟩

theorem open_operations_replicate (opened : List Nat) (k n : Nat)
    (calls : List ProviderCall) :
    open_operations opened (List.replicate n (ProviderCall.GetInstance k) ++ calls) =
      open_operations opened calls := by
  induction n with
  | zero => rfl
  | succ n ih => rw [List.replicate_succ, List.cons_append, open_operations, ih]

theorem Enumerate_calls_loop_spec (m_Session : MI_Session) (enumItems : List EnumItem) :
    ∀ (k : Nat) (opened : List Nat),
    Enumerate_calls_loop m_Session k enumItems =
      ((List.enumFrom k enumItems).map (fun request =>
        ProviderCall.EnumerateInstances request.1 request.2.1 request.2.2 ::
          (List.replicate
              (handle_results_calls (m_Session request.1 request.2.1 request.2.2))
              (ProviderCall.GetInstance request.1) ++
            [ProviderCall.Close request.1]))).flatten ∧
    close_count (Enumerate_calls_loop m_Session k enumItems) = enumItems.length ∧
    open_operations opened (Enumerate_calls_loop m_Session k enumItems) = opened := by
  induction enumItems with
  | nil => intro k opened; simp [Enumerate_calls_loop, close_count, open_operations]
  | cons pos rest ih =>
    intro k opened
    obtain ⟨h1, h2, h3⟩ := ih (k + 1) opened
    refine ⟨?_, ?_, ?_⟩
    · rw [Enumerate_calls_loop, h1]
      simp [List.enumFrom]
    · rw [Enumerate_calls_loop]
      unfold close_count at h2 ⊢
      simp only [List.countP_cons, List.countP_append, h2, List.length_cons]
      simp [List.countP_replicate]
    · rw [Enumerate_calls_loop, open_operations, open_operations_replicate, open_operations,
        List.erase_cons_head, h3]

/-- C15: the provider calls of `Enumerate` are, request after request in list order,
the opening of the cursor of the request, the pulls of its drain and one closing of
that cursor, whatever the provider answers; the number of closings is the number of
requests and no operation is open at the end. -/
theorem Enumerate_open_drain_close (m_Session : MI_Session) (enumItems : List EnumItem) :
    Enumerate_calls m_Session enumItems =
      ((List.enumFrom 0 enumItems).map (fun request =>
        ProviderCall.EnumerateInstances request.1 request.2.1 request.2.2 ::
          (List.replicate
              (handle_results_calls (m_Session request.1 request.2.1 request.2.2))
              (ProviderCall.GetInstance request.1) ++
            [ProviderCall.Close request.1]))).flatten ∧
    close_count (Enumerate_calls m_Session enumItems) = enumItems.length ∧
    open_operations [] (Enumerate_calls m_Session enumItems) = [] ∧
    Enumerate_calls (fun _ _ _ => failing_operation)
        [("root/scx".data, "A".data), ("root/scx".data, "B".data)] =
      [ProviderCall.EnumerateInstances 0 "root/scx".data "A".data,
       ProviderCall.GetInstance 0, ProviderCall.GetInstance 0, ProviderCall.Close 0,
       ProviderCall.EnumerateInstances 1 "root/scx".data "B".data,
       ProviderCall.GetInstance 1, ProviderCall.GetInstance 1, ProviderCall.Close 1] := by
  obtain ⟨h1, h2, h3⟩ := Enumerate_calls_loop_spec m_Session enumItems 0 []
  exact ⟨h1, h2, h3, by decide⟩

/-- C20: whatever the provider answers, when `Connect` returns a status other than
success the three handles are null and the last three provider calls are the release of
the operation options, of the session and of the application; when it returns success
all four calls succeeded, the handles are what the provider filled in and no releasing
call was made. -/
theorem Connect_teardown (provider : ConnectAnswers) (self : OMIInterface) :
    ((Connect provider self).1 ≠ MI_RESULT_OK →
      (Connect provider self).2.1 = { m_App := none, m_Session := none, m_Options := none } ∧
      ∃ (calls : List ConnectCall) (options session app : MI_Handle),
        (Connect provider self).2.2 =
          calls ++ [ConnectCall.OperationOptions_Delete options,
            ConnectCall.Session_Close session, ConnectCall.Application_Close app] ∧
        (∀ call ∈ calls, call.releases = false)) ∧
    ((Connect provider self).1 = MI_RESULT_OK →
      provider.Application_Initialize.1 = MI_RESULT_OK ∧
      provider.Application_NewSession.1 = MI_RESULT_OK ∧
      provider.Application_NewOperationOptions.1 = MI_RESULT_OK ∧
      provider.OperationOptions_SetTimeout = MI_RESULT_OK ∧
      (Connect provider self).2.1 =
        { m_App := provider.Application_Initialize.2,
          m_Session := provider.Application_NewSession.2,
          m_Options := provider.Application_NewOperationOptions.2 } ∧
      (∀ call ∈ (Connect provider self).2.2, call.releases = false)) ∧
    ((Connect provider self).1 ≠ MI_RESULT_OK ↔
      (provider.Application_Initialize.1 ≠ MI_RESULT_OK ∨
        provider.Application_NewSession.1 ≠ MI_RESULT_OK ∨
        provider.Application_NewOperationOptions.1 ≠ MI_RESULT_OK ∨
        provider.OperationOptions_SetTimeout ≠ MI_RESULT_OK)) := by
  by_cases h1 : MI_RESULT_OK = provider.Application_Initialize.1
  · by_cases h2 : MI_RESULT_OK = provider.Application_NewSession.1
    · by_cases h3 : MI_RESULT_OK = provider.Application_NewOperationOptions.1
      · have hc : Connect_create provider self =
            (provider.OperationOptions_SetTimeout,
              { m_App := provider.Application_Initialize.2,
                m_Session := provider.Application_NewSession.2,
                m_Options := provider.Application_NewOperationOptions.2 },
              [ConnectCall.Application_Initialize, ConnectCall.Application_NewSession,
               ConnectCall.Application_NewOperationOptions,
               ConnectCall.OperationOptions_SetTimeout 1 30]) := by
          unfold Connect_create
          simp only [if_pos h1, if_pos h2, if_pos h3]
        by_cases h4 : MI_RESULT_OK = provider.OperationOptions_SetTimeout
        · have hr : Connect provider self = Connect_create provider self := by
            unfold Connect
            rw [hc]
            simp only [ne_eq, h4, not_true_eq_false, if_false]
          rw [hr, hc]
          refine ⟨fun h => absurd h4.symm h, fun _ => ⟨h1.symm, h2.symm, h3.symm, h4.symm, rfl, ?_⟩, ?_⟩
          · simp [ConnectCall.releases]
          · simp [← h1, ← h2, ← h3, ← h4]
        · have h4s : ¬(provider.OperationOptions_SetTimeout = MI_RESULT_OK) :=
            fun h => h4 h.symm
          have hr : Connect provider self =
              (provider.OperationOptions_SetTimeout,
                { m_App := none, m_Session := none, m_Options := none },
                [ConnectCall.Application_Initialize, ConnectCall.Application_NewSession,
                 ConnectCall.Application_NewOperationOptions,
                 ConnectCall.OperationOptions_SetTimeout 1 30] ++
                [ConnectCall.OperationOptions_Delete provider.Application_NewOperationOptions.2,
                 ConnectCall.Session_Close provider.Application_NewSession.2,
                 ConnectCall.Application_Close provider.Application_Initialize.2]) := by
            unfold Connect
            rw [hc]
            simp only [ne_eq, h4, not_false_eq_true, if_true, Disconnect]
          rw [hr]
          refine ⟨fun _ => ⟨rfl, _, _, _, _, rfl, ?_⟩, fun h => absurd h h4s, ?_⟩
          · simp [ConnectCall.releases]
          · simp [h4s]
      · have h3s : ¬(provider.Application_NewOperationOptions.1 = MI_RESULT_OK) :=
          fun h => h3 h.symm
        have hr : Connect provider self =
            (provider.Application_NewOperationOptions.1,
              { m_App := none, m_Session := none, m_Options := none },
              [ConnectCall.Application_Initialize, ConnectCall.Application_NewSession,
               ConnectCall.Application_NewOperationOptions] ++
              [ConnectCall.OperationOptions_Delete provider.Application_NewOperationOptions.2,
               ConnectCall.Session_Close provider.Application_NewSession.2,
               ConnectCall.Application_Close provider.Application_Initialize.2]) := by
          have hc : Connect_create provider self =
              (provider.Application_NewOperationOptions.1,
                { m_App := provider.Application_Initialize.2,
                  m_Session := provider.Application_NewSession.2,
                  m_Options := provider.Application_NewOperationOptions.2 },
                [ConnectCall.Application_Initialize, ConnectCall.Application_NewSession,
                 ConnectCall.Application_NewOperationOptions]) := by
            unfold Connect_create
            simp only [if_pos h1, if_pos h2, if_neg h3]
          unfold Connect
          rw [hc]
          simp only [ne_eq, h3, not_false_eq_true, if_true, Disconnect]
        rw [hr]
        refine ⟨fun _ => ⟨rfl, _, _, _, _, rfl, ?_⟩, fun h => absurd h h3s, ?_⟩
        · simp [ConnectCall.releases]
        · simp [h3s]
    · have h2s : ¬(provider.Application_NewSession.1 = MI_RESULT_OK) := fun h => h2 h.symm
      have hr : Connect provider self =
          (provider.Application_NewSession.1,
            { m_App := none, m_Session := none, m_Options := none },
            [ConnectCall.Application_Initialize, ConnectCall.Application_NewSession] ++
            [ConnectCall.OperationOptions_Delete self.m_Options,
             ConnectCall.Session_Close provider.Application_NewSession.2,
             ConnectCall.Application_Close provider.Application_Initialize.2]) := by
        have hc : Connect_create provider self =
            (provider.Application_NewSession.1,
              { m_App := provider.Application_Initialize.2,
                m_Session := provider.Application_NewSession.2,
                m_Options := self.m_Options },
              [ConnectCall.Application_Initialize, ConnectCall.Application_NewSession]) := by
          unfold Connect_create
          simp only [if_pos h1, if_neg h2]
        unfold Connect
        rw [hc]
        simp only [ne_eq, h2, not_false_eq_true, if_true, Disconnect]
      rw [hr]
      refine ⟨fun _ => ⟨rfl, _, _, _, _, rfl, ?_⟩, fun h => absurd h h2s, ?_⟩
      · simp [ConnectCall.releases]
      · simp [h2s]
  · have h1s : ¬(provider.Application_Initialize.1 = MI_RESULT_OK) := fun h => h1 h.symm
    have hr : Connect provider self =
        (provider.Application_Initialize.1,
          { m_App := none, m_Session := none, m_Options := none },
          [ConnectCall.Application_Initialize] ++
          [ConnectCall.OperationOptions_Delete self.m_Options,
           ConnectCall.Session_Close self.m_Session,
           ConnectCall.Application_Close provider.Application_Initialize.2]) := by
      have hc : Connect_create provider self =
          (provider.Application_Initialize.1,
            { m_App := provider.Application_Initialize.2,
              m_Session := self.m_Session,
              m_Options := self.m_Options },
            [ConnectCall.Application_Initialize]) := by
        unfold Connect_create
        simp only [if_neg h1]
      unfold Connect
      rw [hc]
      simp only [ne_eq, h1, not_false_eq_true, if_true, Disconnect]
    rw [hr]
    refine ⟨fun _ => ⟨rfl, _, _, _, _, rfl, ?_⟩, fun h => absurd h h1s, ?_⟩
    · simp [ConnectCall.releases]
    · simp [h1s]

theorem range_map_getD (l : List VALUE) (d : VALUE) :
    (List.range l.length).map (fun i => l.getD i d) = l := by
  apply List.ext_getElem
  · simp
  · intro n h1 h2
    simp at h1
    simp [List.getD, h1]

theorem TYPE_other (type : Nat) :
    T_ARRAY ≠ TYPE (VALUE.other type) ∧ T_STRING ≠ TYPE (VALUE.other type) := by
  simp only [TYPE, T_ARRAY, T_STRING]
  split_ifs with h <;> omega

theorem wrap_enumItems_eq (items : List VALUE) :
    wrap_enumItems items = items.filterMap well_formed_request := by
  induction items with
  | nil => rfl
  | cons item rest ih =>
    rw [wrap_enumItems, ih, List.filterMap_cons]
    cases item with
    | string ptr => simp [TYPE, T_ARRAY, T_STRING, well_formed_request]
    | other type => simp [(TYPE_other type).1, well_formed_request]
    | array elements =>
      match elements with
      | [] => simp [RARRAY_LEN, well_formed_request]
      | [a] => simp [RARRAY_LEN, well_formed_request]
      | a :: b :: c :: r => simp [RARRAY_LEN, well_formed_request]
      | [a, b] =>
        cases a with
        | array e => simp [TYPE, RARRAY_LEN, RARRAY_AREF, T_ARRAY, T_STRING, well_formed_request]
        | other t =>
          have h := (TYPE_other t).2
          simp [RARRAY_AREF, h, well_formed_request]
        | string first =>
          cases b with
          | array e =>
            simp [TYPE, RARRAY_LEN, RARRAY_AREF, T_ARRAY, T_STRING, well_formed_request]
          | other t =>
            have h := (TYPE_other t).2
            simp [RARRAY_AREF, h, well_formed_request]
          | string second =>
            simp [TYPE, RARRAY_LEN, RARRAY_AREF, RSTRING_PTR, well_formed_request]

theorem wrap_enumItems_array (entries : List VALUE) :
    wrap_enumItems ((List.range (RARRAY_LEN (VALUE.array entries))).map
        (RARRAY_AREF (VALUE.array entries))) =
      entries.filterMap well_formed_request := by
  have h : (List.range (RARRAY_LEN (VALUE.array entries))).map
      (RARRAY_AREF (VALUE.array entries)) = entries := range_map_getD entries _
  rw [h, wrap_enumItems_eq]

theorem wrap_strm_array (m_Session : MI_Session) (entries : List VALUE) :
    wrap_OMIInterface_enumerate_strm m_Session (VALUE.array entries) =
      (Enumerate m_Session (entries.filterMap well_formed_request)).2 := by
  unfold wrap_OMIInterface_enumerate_strm
  rw [wrap_enumItems_array]
  simp [TYPE]

/-- C17: for every list passed to the entry point, the requests handed to `Enumerate`
are the entries that are arrays of exactly two strings, in their original order; every
other entry is skipped and the stream holds the text of `Enumerate` for these
requests. -/
theorem wrap_enumerate_requests (m_Session : MI_Session) (entries : List VALUE) :
    wrap_enumItems ((List.range (RARRAY_LEN (VALUE.array entries))).map
        (RARRAY_AREF (VALUE.array entries))) =
      entries.filterMap well_formed_request ∧
    wrap_OMIInterface_enumerate_strm m_Session (VALUE.array entries) =
      (Enumerate m_Session (entries.filterMap well_formed_request)).2 ∧
    wrap_enumItems ((List.range (RARRAY_LEN sample_items)).map (RARRAY_AREF sample_items)) =
      [("A".data, "ns".data), ("B".data, "ns2".data)] :=
  ⟨wrap_enumItems_array entries, wrap_strm_array m_Session entries, by decide⟩

theorem nulFree_append {a b : String} (ha : NulFree a) (hb : NulFree b) :
    NulFree (a ++ b) := by
  unfold NulFree at *
  simp [String.data_append, ha, hb]

theorem nulFree_mk {l : List Char} (h : ∀ c ∈ l, c ≠ NUL) : NulFree (String.mk l) :=
  fun hc => h NUL hc rfl

theorem nulFree_ite {c : Prop} [Decidable c] {a b : String} (ha : NulFree a)
    (hb : NulFree b) : NulFree (if c then a else b) := by
  split_ifs <;> assumption

theorem c_str_nulFree (l : List Char) : NulFree (c_str l) := by
  induction l with
  | nil => unfold c_str; decide
  | cons ch rest ih =>
    unfold c_str
    split_ifs with h
    · decide
    · exact nulFree_append (nulFree_mk (by simpa using h)) ih

theorem c_str_of_nulFree (l : List Char) (h : NUL ∉ l) : c_str l = String.mk l := by
  induction l with
  | nil => rfl
  | cons ch rest ih =>
    have h0 : ch ≠ NUL := fun hc => h (by simp [hc])
    have hr : NUL ∉ rest := fun hc => h (by simp [hc])
    rw [c_str, if_neg h0, ih hr]
    rfl

theorem string_to_json_nulFree (l : List Char) : NulFree (string_to_json l) := by
  induction l with
  | nil => unfold string_to_json; decide
  | cons ch rest ih =>
    by_cases h : ch = NUL
    · simp only [string_to_json, h, if_true]; decide
    · rw [string_to_json_cons ch rest h]
      refine nulFree_append ?_ ih
      unfold char_to_json
      split_ifs <;> simp only [Option.getD_some, Option.getD_none] <;>
        first
        | exact nulFree_mk (by simpa [String.singleton] using h)
        | decide

theorem digits_ne_nul {l : List Char} (h : l.all Char.isDigit = true) :
    ∀ c ∈ l, c ≠ NUL := by
  intro c hc hn
  rw [List.all_eq_true] at h
  have := h c hc
  rw [hn] at this
  exact absurd this (by decide)

theorem toDigits_ne_nul (n : Nat) : ∀ c ∈ Nat.toDigits 10 n, c ≠ NUL :=
  digits_ne_nul (toDigitsCore_all _ _ _ rfl)

theorem toString_nat_nulFree (n : Nat) : NulFree (toString n) :=
  nulFree_mk (toDigits_ne_nul n)

theorem toString_int_nulFree (i : Int) : NulFree (toString i) := by
  cases i with
  | ofNat m => exact toString_nat_nulFree m
  | negSucc m =>
    have h : toString (Int.negSucc m) = "-" ++ toString (m + 1) := rfl
    rw [h]
    exact nulFree_append (by decide) (toString_nat_nulFree _)

theorem strip_zeros_ne_nul {l : List Char} (h : ∀ c ∈ l, c ≠ NUL) :
    ∀ c ∈ strip_zeros l, c ≠ NUL := by
  intro c hc
  unfold strip_zeros at hc
  rw [List.mem_reverse] at hc
  have := (List.dropWhile_sublist _).subset hc
  exact h c (List.mem_reverse.mp this)

theorem fraction_text_nulFree {l : List Char} (h : ∀ c ∈ l, c ≠ NUL) :
    NulFree (fraction_text l) := by
  unfold fraction_text
  exact nulFree_ite (by decide) (nulFree_append (by decide) (nulFree_mk h))

theorem format_g_nulFree (N D : Nat) : NulFree (format_g N D) := by
  have hd : ∀ n : Nat, ∀ c ∈ Nat.toDigits 10 n, c ≠ NUL := toDigits_ne_nul
  have htake : ∀ (n k : Nat), ∀ c ∈ (Nat.toDigits 10 n).take k, c ≠ NUL :=
    fun n k c hc => hd n c (List.mem_of_mem_take hc)
  have hdrop : ∀ (n k : Nat), ∀ c ∈ (Nat.toDigits 10 n).drop k, c ≠ NUL :=
    fun n k c hc => hd n c (List.mem_of_mem_drop hc)
  have hrep : ∀ k : Nat, ∀ c ∈ List.replicate k '0', c ≠ NUL := by
    intro k c hc
    rw [List.mem_replicate] at hc
    rw [hc.2]
    decide
  have h0 : NulFree "0" := by decide
  have he : NulFree "e" := by decide
  have hm : NulFree "-" := by decide
  have hp : NulFree "+" := by decide
  have hn : NulFree "" := by decide
  have hz : NulFree "0." := by decide
  unfold format_g
  lift_lets
  intro e0 scaled dg X ds
  split_ifs
  · exact nulFree_append (nulFree_append (nulFree_append (nulFree_append
      (nulFree_append (nulFree_mk (htake _ _))
        (fraction_text_nulFree (strip_zeros_ne_nul (hdrop _ _)))) he) hm) h0)
      (toString_nat_nulFree _)
  · exact nulFree_append (nulFree_append (nulFree_append (nulFree_append
      (nulFree_append (nulFree_mk (htake _ _))
        (fraction_text_nulFree (strip_zeros_ne_nul (hdrop _ _)))) he) hm) hn)
      (toString_nat_nulFree _)
  · exact nulFree_append (nulFree_append (nulFree_append (nulFree_append
      (nulFree_append (nulFree_mk (htake _ _))
        (fraction_text_nulFree (strip_zeros_ne_nul (hdrop _ _)))) he) hp) h0)
      (toString_nat_nulFree _)
  · exact nulFree_append (nulFree_append (nulFree_append (nulFree_append
      (nulFree_append (nulFree_mk (htake _ _))
        (fraction_text_nulFree (strip_zeros_ne_nul (hdrop _ _)))) he) hp) hn)
      (toString_nat_nulFree _)
  · exact nulFree_append (nulFree_mk (htake _ _))
      (fraction_text_nulFree (strip_zeros_ne_nul (hdrop _ _)))
  · exact nulFree_append (nulFree_append hz (nulFree_mk (hrep _)))
      (nulFree_mk (strip_zeros_ne_nul (hd _)))

theorem real_text_nulFree (x : MI_Real) : NulFree x.text := by
  cases x with
  | finite negative mantissa exponent =>
    unfold MI_Real.text
    refine nulFree_append (nulFree_ite (by decide) (by decide)) ?_
    split_ifs
    · decide
    · exact format_g_nulFree _ _
    · exact format_g_nulFree _ _
  | infinite negative =>
    unfold MI_Real.text
    exact nulFree_append (nulFree_ite (by decide) (by decide)) (by decide)
  | nan negative =>
    unfold MI_Real.text
    exact nulFree_append (nulFree_ite (by decide) (by decide)) (by decide)

theorem nulFree_append_iff (a b : String) :
    NulFree (a ++ b) ↔ NulFree a ∧ NulFree b := by
  unfold NulFree
  simp [String.data_append, not_or]

theorem timestamp_to_json_nulFree (timestamp : MI_Timestamp) :
    NulFree (timestamp_to_json timestamp) := by
  rw [timestamp_to_json_eq]
  simp only [nulFree_append_iff, toString_nat_nulFree, toString_int_nulFree, and_true]
  decide

theorem interval_to_json_nulFree (interval : MI_Interval) :
    NulFree (interval_to_json interval) := by
  rw [interval_to_json_eq]
  simp only [nulFree_append_iff, toString_nat_nulFree, and_true]
  decide

theorem nulFree_tokens :
    NulFree "" ∧ NulFree JSON_TRUE ∧ NulFree JSON_FALSE ∧ NulFree JSON_CLASS_KEY ∧
    NulFree JSON_LIST_START ∧ NulFree JSON_LIST_END ∧ NulFree JSON_DICT_START ∧
    NulFree JSON_DICT_END ∧ NulFree JSON_SEPARATOR ∧ NulFree JSON_START_STRING ∧
    NulFree JSON_END_STRING ∧ NulFree JSON_PAIR_TOKEN := by
  decide

mutual
theorem value_to_json_nulFree : ∀ (value : MI_Value) (type : MI_Type),
    NulFree (value_to_json value type)
  | .mk value reference instance_ booleana uint8a sint8a uint16a sint16a uint32a sint32a
      uint64a sint64a real32a real64a char16a datetimea stringa instancea, type => by
    have hr := instance_to_json_nulFree reference
    have hi := instance_to_json_nulFree instance_
    have a1 := array_to_json_nulFree 0 booleana type
    have a2 := array_to_json_nulFree 0 uint8a type
    have a3 := array_to_json_nulFree 0 sint8a type
    have a4 := array_to_json_nulFree 0 uint16a type
    have a5 := array_to_json_nulFree 0 sint16a type
    have a6 := array_to_json_nulFree 0 uint32a type
    have a7 := array_to_json_nulFree 0 sint32a type
    have a8 := array_to_json_nulFree 0 uint64a type
    have a9 := array_to_json_nulFree 0 sint64a type
    have a10 := array_to_json_nulFree 0 real32a type
    have a11 := array_to_json_nulFree 0 real64a type
    have a12 := array_to_json_nulFree 0 char16a type
    have a13 := array_to_json_nulFree 0 datetimea type
    have a14 := array_to_json_nulFree 0 stringa type
    have a15 := array_to_json_nulFree 0 instancea type
    obtain ⟨t0, t1, t2, -, t4, t5, -, -, -, t9, t10, -⟩ := nulFree_tokens
    rw [value_to_json]
    simp only [nulFree_append_iff, apply_ite NulFree, hr, hi, a1, a2, a3, a4, a5, a6, a7, a8,
      a9, a10, a11, a12, a13, a14, a15, t0, t1, t2, t4, t5, t9, t10, toString_nat_nulFree,
      toString_int_nulFree, real_text_nulFree, timestamp_to_json_nulFree,
      interval_to_json_nulFree, string_to_json_nulFree, ite_self, and_self]
theorem array_to_json_nulFree : ∀ (i : Nat) (cells : List MI_Value) (type : MI_Type),
    NulFree (array_to_json i cells type)
  | _, [], _ => by rw [array_to_json]; exact nulFree_tokens.1
  | i, cell :: cells, type => by
    have h1 := value_to_json_nulFree cell (clear_bits type MI_ARRAY)
    have h2 := array_to_json_nulFree (i + 1) cells type
    obtain ⟨t0, -, -, -, -, -, -, -, t8, -⟩ := nulFree_tokens
    rw [array_to_json]
    simp only [nulFree_append_iff, apply_ite NulFree, h1, h2, t0, t8, ite_self, and_self]
theorem instance_to_json_nulFree : ∀ (instance_ : MI_Instance),
    NulFree (instance_to_json instance_)
  | .mk classNameResult className countResult elements => by
    have h := elements_to_json_nulFree elements
    obtain ⟨t0, -, -, t3, -, -, t6, t7, -, t9, t10, t11⟩ := nulFree_tokens
    rw [instance_to_json]
    simp only [nulFree_append_iff, apply_ite NulFree, h, t0, t3, t6, t7, t9, t10, t11,
      c_str_nulFree, ite_self, and_self]
theorem elements_to_json_nulFree : ∀ (elements : List MI_Element),
    NulFree (elements_to_json elements)
  | [] => by rw [elements_to_json]; exact nulFree_tokens.1
  | .mk result elementName value type flags :: rest => by
    have h1 := value_to_json_nulFree value type
    have h2 := elements_to_json_nulFree rest
    obtain ⟨t0, -, -, -, -, -, -, -, t8, t9, t10, t11⟩ := nulFree_tokens
    rw [elements_to_json]
    simp only [nulFree_append_iff, apply_ite NulFree, h1, h2, t0, t8, t9, t10, t11,
      string_to_json_nulFree, ite_self, and_self]
end

theorem handle_pull_nulFree (count : Nat) (pull : MI_Pull) :
    NulFree (handle_pull count pull).1 := by
  have e : NulFree "" := by decide
  rw [handle_pull_eq]
  cases (if MI_RESULT_OK = pull.instanceResult then pull.pInstance else none) with
  | none => exact e
  | some pInstance =>
    exact nulFree_append (nulFree_ite nulFree_tokens.2.2.2.2.2.2.2.2.1 e)
      (instance_to_json_nulFree _)

theorem handle_results_loop_nulFree (operation : MI_Operation) :
    ∀ count : Nat, NulFree (handle_results_loop count operation).1 := by
  induction operation with
  | nil => intro count; rw [handle_results_loop]; exact (by decide : NulFree "")
  | cons pull rest ih =>
    intro count
    rw [handle_results_loop]
    split_ifs
    · exact nulFree_append (handle_pull_nulFree _ _) (ih _)
    · exact handle_pull_nulFree _ _

theorem Enumerate_loop_nulFree (m_Session : MI_Session) (enumItems : List EnumItem) :
    ∀ (k : Nat) (addSeparator : Bool),
    NulFree (Enumerate_loop m_Session k addSeparator enumItems) := by
  induction enumItems with
  | nil => intro k b; rw [Enumerate_loop]; decide
  | cons pos rest ih =>
    intro k b
    rw [Enumerate_loop]
    exact nulFree_append (nulFree_append
      (nulFree_ite nulFree_tokens.2.2.2.2.2.2.2.2.1 nulFree_tokens.1)
      (handle_results_loop_nulFree _ _)) (ih _ _)

theorem Enumerate_nulFree (m_Session : MI_Session) (enumItems : List EnumItem) :
    NulFree (Enumerate m_Session enumItems).2 :=
  nulFree_append (nulFree_append nulFree_tokens.2.2.2.2.1 (Enumerate_loop_nulFree _ _ _ _))
    nulFree_tokens.2.2.2.2.2.1

/-- C18 (amended): for every argument that is a list the returned text is the text of
`Enumerate`, which begins with an opening bracket and ends with a closing bracket; for
every argument that is no list the returned text is empty. -/
theorem wrap_enumerate_shape (m_Session : MI_Session) :
    (∀ entries : List VALUE,
      wrap_OMIInterface_enumerate m_Session (VALUE.array entries) =
        (Enumerate m_Session (entries.filterMap well_formed_request)).2 ∧
      ∃ body : String,
        wrap_OMIInterface_enumerate m_Session (VALUE.array entries) = "[" ++ body ++ "]") ∧
    (∀ items : VALUE, T_ARRAY ≠ TYPE items →
      wrap_OMIInterface_enumerate m_Session items = "") := by
  constructor
  · intro entries
    have h1 := wrap_strm_array m_Session entries
    have h2 : wrap_OMIInterface_enumerate m_Session (VALUE.array entries) =
        (Enumerate m_Session (entries.filterMap well_formed_request)).2 := by
      unfold wrap_OMIInterface_enumerate
      rw [h1, c_str_of_nulFree _ (Enumerate_nulFree _ _)]
    exact ⟨h2, _, h2.trans rfl⟩
  · intro items h
    unfold wrap_OMIInterface_enumerate wrap_OMIInterface_enumerate_strm
    rw [if_neg h]
    rfl

/-- C18: for the argument 5, which is no list, the entry point returns the empty text,
which does not begin with an opening bracket. -/
theorem wrap_enumerate_not_array :
    wrap_OMIInterface_enumerate one_then_none_session (VALUE.other T_FIXNUM) = "" ∧
    ¬ ∃ body : String,
      wrap_OMIInterface_enumerate one_then_none_session (VALUE.other T_FIXNUM) =
        "[" ++ body ++ "]" := by
  have h : wrap_OMIInterface_enumerate one_then_none_session (VALUE.other T_FIXNUM) = "" := by
    decide
  refine ⟨h, ?_⟩
  rintro ⟨body, hb⟩
  rw [h] at hb
  have := congrArg String.length hb
  rw [String.length_append, String.length_append] at this
  have e1 : "".length = 0 := rfl
  have e2 : "[".length = 1 := rfl
  omega

namespace Graph

theorem value_to_json_plain (deref : MI_InstancePtr → Option String) (value : MI_Value)
    (type : MI_Type) (h : type < 14) : (value_to_json deref value type).isSome = true := by
  cases value
  have h14 : @LT.lt Nat _ type 14 := h
  rw [value_to_json, Option.isSome_map']
  interval_cases type <;>
    simp [MI_BOOLEAN, MI_UINT8, MI_SINT8, MI_UINT16, MI_SINT16, MI_UINT32, MI_SINT32,
      MI_UINT64, MI_SINT64, MI_REAL32, MI_REAL64, MI_CHAR16, MI_DATETIME, MI_STRING]

theorem value_to_json_reference (deref : MI_InstancePtr → Option String) (value : MI_Value) :
    (value_to_json deref value MI_REFERENCE).isSome = (deref value.reference).isSome ∧
    (value_to_json deref value MI_INSTANCE).isSome = (deref value.instance_).isSome := by
  cases value
  constructor <;> rw [value_to_json, Option.isSome_map'] <;>
    simp [MI_BOOLEAN, MI_UINT8, MI_SINT8, MI_UINT16, MI_SINT16, MI_UINT32, MI_SINT32,
      MI_UINT64, MI_SINT64, MI_REAL32, MI_REAL64, MI_CHAR16, MI_DATETIME, MI_STRING,
      MI_REFERENCE, MI_INSTANCE, MI_Value.reference, MI_Value.instance_]

theorem array_to_json_isSome (deref : MI_InstancePtr → Option String) (type : MI_Type)
    (cells : List MI_Value) :
    (∀ cell ∈ cells, (value_to_json deref cell (clear_bits type MI_ARRAY)).isSome = true) →
    ∀ i : Nat, (array_to_json deref i cells type).isSome = true := by
  induction cells with
  | nil => intro _ i; rw [array_to_json]; rfl
  | cons cell rest ih =>
    intro h i
    have h1 := h cell (List.mem_cons_self _ _)
    have h2 := ih (fun c hc => h c (List.mem_cons_of_mem _ hc)) (i + 1)
    rw [array_to_json]
    obtain ⟨a, ha⟩ := Option.isSome_iff_exists.mp h1
    obtain ⟨b, hb⟩ := Option.isSome_iff_exists.mp h2
    rw [ha, hb]
    rfl

theorem clear_bits_array (type : MI_Type) (hlo : 16 ≤ type) (hhi : type < 32) :
    clear_bits type MI_ARRAY = type - 16 := by
  have h1 : @LE.le Nat _ 16 type := hlo
  have h2 : @LT.lt Nat _ type 32 := hhi
  unfold clear_bits MI_ARRAY
  interval_cases type <;> decide

theorem value_to_json_isSome (deref : MI_InstancePtr → Option String) (value : MI_Value)
    (type : MI_Type) (h : ∀ q ∈ value_pointers value type, (deref q).isSome = true) :
    (value_to_json deref value type).isSome = true := by
  by_cases h14 : type < 14
  · exact value_to_json_plain deref value type h14
  by_cases h16 : type < 16
  · have hcases : type = MI_REFERENCE ∨ type = MI_INSTANCE := by
      have a : @LT.lt Nat _ type 16 := h16
      have b : ¬ @LT.lt Nat _ type 14 := h14
      show @Eq Nat type 14 ∨ @Eq Nat type 15
      omega
    rcases hcases with ht | ht
    · subst ht
      rw [(value_to_json_reference deref value).1]
      exact h _ (by simp [value_pointers])
    · subst ht
      rw [(value_to_json_reference deref value).2]
      exact h _ (by simp [value_pointers, MI_INSTANCE, MI_REFERENCE])
  by_cases h32 : type < 32
  · have hplain : type < 30 → ∀ cell : MI_Value,
        (value_to_json deref cell (clear_bits type MI_ARRAY)).isSome = true := by
      intro h30 cell
      rw [clear_bits_array type (Nat.le_of_not_lt h16) h32]
      apply value_to_json_plain
      have a : @LT.lt Nat _ type 30 := h30
      show @LT.lt Nat _ (type - 16) 14
      omega
    have hcells : ∀ cell ∈ value.instancea,
        (value_to_json deref cell (clear_bits type MI_ARRAY)).isSome = true := by
      intro cell hc
      by_cases h30 : type < 30
      · exact hplain h30 cell
      · have hcases : type = MI_REFERENCEA ∨ type = MI_INSTANCEA := by
          have a : @LT.lt Nat _ type 32 := h32
          have b : ¬ @LT.lt Nat _ type 30 := h30
          show @Eq Nat type 30 ∨ @Eq Nat type 31
          omega
        rcases hcases with ht | ht
        · subst ht
          have e : clear_bits MI_REFERENCEA MI_ARRAY = MI_REFERENCE := by decide
          rw [e, (value_to_json_reference deref cell).1]
          exact h _ (by
            simp only [value_pointers, MI_REFERENCEA, MI_REFERENCE, MI_INSTANCE]
            simp only [Nat.reduceEqDiff, if_false, if_true]
            exact List.mem_map_of_mem _ hc)
        · subst ht
          have e : clear_bits MI_INSTANCEA MI_ARRAY = MI_INSTANCE := by decide
          rw [e, (value_to_json_reference deref cell).2]
          exact h _ (by
            simp only [value_pointers, MI_INSTANCEA, MI_REFERENCEA, MI_REFERENCE, MI_INSTANCE]
            simp only [Nat.reduceEqDiff, if_false, if_true]
            exact List.mem_map_of_mem _ hc)
    have a : @LE.le Nat _ 16 type := Nat.le_of_not_lt h16
    have b : @LT.lt Nat _ type 32 := h32
    cases value
    rw [value_to_json, Option.isSome_map']
    simp only [MI_Value.instancea] at hcells
    interval_cases type <;>
      simp only [MI_BOOLEAN, MI_UINT8, MI_SINT8, MI_UINT16, MI_SINT16, MI_UINT32, MI_SINT32,
        MI_UINT64, MI_SINT64, MI_REAL32, MI_REAL64, MI_CHAR16, MI_DATETIME, MI_STRING,
        MI_REFERENCE, MI_INSTANCE, MI_BOOLEANA, MI_UINT8A, MI_SINT8A, MI_UINT16A,
        MI_SINT16A, MI_UINT32A, MI_SINT32A, MI_UINT64A, MI_SINT64A, MI_REAL32A, MI_REAL64A,
        MI_CHAR16A, MI_DATETIMEA, MI_STRINGA, MI_REFERENCEA, MI_INSTANCEA,
        Nat.reduceEqDiff, if_false, if_true, or_true, true_or, or_self] <;>
      first
      | exact array_to_json_isSome deref _ _ hcells 0
      | exact array_to_json_isSome deref _ _ (fun cell _ => hplain (by decide) cell) 0
  · cases value
    have a : ¬ @LT.lt Nat _ type 32 := h32
    have e : ∀ n : Nat, n < 32 → ¬(type = n) := fun n hn hc => by
      have hc1 : @Eq Nat type n := hc
      omega
    rw [value_to_json, Option.isSome_map']
    simp only [MI_BOOLEAN, MI_UINT8, MI_SINT8, MI_UINT16, MI_SINT16, MI_UINT32, MI_SINT32,
      MI_UINT64, MI_SINT64, MI_REAL32, MI_REAL64, MI_CHAR16, MI_DATETIME, MI_STRING,
      MI_REFERENCE, MI_INSTANCE, MI_BOOLEANA, MI_UINT8A, MI_SINT8A, MI_UINT16A,
      MI_SINT16A, MI_UINT32A, MI_SINT32A, MI_UINT64A, MI_SINT64A, MI_REAL32A, MI_REAL64A,
      MI_CHAR16A, MI_DATETIMEA, MI_STRINGA, MI_REFERENCEA, MI_INSTANCEA,
      e 0 (by decide), e 1 (by decide), e 2 (by decide), e 3 (by decide), e 4 (by decide),
      e 5 (by decide), e 6 (by decide), e 7 (by decide), e 8 (by decide), e 9 (by decide),
      e 10 (by decide), e 11 (by decide), e 12 (by decide), e 13 (by decide), e 14 (by decide),
      e 15 (by decide), e 16 (by decide), e 17 (by decide), e 18 (by decide), e 19 (by decide),
      e 20 (by decide), e 21 (by decide), e 22 (by decide), e 23 (by decide), e 24 (by decide),
      e 25 (by decide), e 26 (by decide), e 27 (by decide), e 28 (by decide), e 29 (by decide),
      e 30 (by decide), e 31 (by decide), or_self, if_false, Option.isSome_some]

theorem elements_to_json_isSome (deref : MI_InstancePtr → Option String)
    (elements : List MI_Element) :
    (∀ element ∈ elements,
      MI_RESULT_OK = element.result ∧ 0 = MI_FLAG_NULL &&& element.flags →
      ∀ q ∈ value_pointers element.value element.type, (deref q).isSome = true) →
    (elements_to_json deref elements).isSome = true := by
  induction elements with
  | nil => intro _; rfl
  | cons element rest ih =>
    intro h
    have h2 := ih (fun e he => h e (List.mem_cons_of_mem _ he))
    obtain ⟨b, hb⟩ := Option.isSome_iff_exists.mp h2
    rw [elements_to_json, hb]
    by_cases hc : MI_RESULT_OK = element.result ∧ 0 = MI_FLAG_NULL &&& element.flags
    · have h1 := value_to_json_isSome deref element.value element.type
        (h element (List.mem_cons_self _ _) hc)
      obtain ⟨a, ha⟩ := Option.isSome_iff_exists.mp h1
      rw [if_pos hc, ha]
      rfl
    · rw [if_neg hc]
      rfl

theorem instance_body_isSome (deref : MI_InstancePtr → Option String)
    (instance_ : MI_Instance)
    (h : ∀ q ∈ instance_pointers instance_, (deref q).isSome = true) :
    (instance_body deref instance_).isSome = true := by
  unfold instance_body
  by_cases hc : MI_RESULT_OK = instance_.classNameResult ∧
      MI_RESULT_OK = instance_.countResult
  · rw [if_pos hc, Option.isSome_map']
    apply elements_to_json_isSome
    intro element he hok q hq
    apply h
    unfold instance_pointers
    rw [if_pos hc, List.mem_flatMap]
    exact ⟨element, he, by rw [if_pos hok]; exact hq⟩
  · rw [if_neg hc]
    rfl

theorem instance_to_json_isSome (memory : Memory) (rank : MI_InstancePtr → Nat)
    (hrank : ∀ p, ∀ q ∈ instance_pointers (memory p), rank q < rank p) :
    ∀ (depth : Nat) (pInstance : MI_InstancePtr), rank pInstance < depth →
    (instance_to_json memory depth pInstance).isSome = true := by
  intro depth
  induction depth with
  | zero => intro p h; omega
  | succ depth ih =>
    intro p h
    rw [instance_to_json]
    apply instance_body_isSome
    intro q hq
    exact ih q (by have := hrank p q hq; omega)

theorem cyclic_memory_none : ∀ depth : Nat,
    instance_to_json cyclic_memory depth 0 = none := by
  intro depth
  induction depth with
  | zero => rfl
  | succ depth ih =>
    rw [instance_to_json]
    simp only [cyclic_memory, instance_body, elements_to_json, MI_Value.ofPointer]
    rw [value_to_json]
    simp [MI_BOOLEAN, MI_UINT8, MI_SINT8, MI_UINT16, MI_SINT16, MI_UINT32, MI_SINT32,
      MI_UINT64, MI_SINT64, MI_REAL32, MI_REAL64, MI_CHAR16, MI_DATETIME, MI_STRING,
      MI_REFERENCE, MI_INSTANCE, MI_RESULT_OK, MI_FLAG_NULL, ih]

end Graph

/-- C19 (amended): on every memory in which the pointers that the encoder follows lead
to instances of lower rank (so that no instance is reachable from itself and every
chain of nested instances is finite), `instance_to_json` returns: calls nested to a
depth above the rank of the instance give a text. -/
theorem instance_to_json_terminates (memory : Graph.Memory)
    (rank : Graph.MI_InstancePtr → Nat)
    (hrank : ∀ p, ∀ q ∈ Graph.instance_pointers (memory p), rank q < rank p)
    (pInstance : Graph.MI_InstancePtr) (depth : Nat) (hdepth : rank pInstance < depth) :
    ∃ text : String, Graph.instance_to_json memory depth pInstance = some text :=
  Option.isSome_iff_exists.mp
    (Graph.instance_to_json_isSome memory rank hrank depth pInstance hdepth)

/-- C19 (amended), at an instance that embeds an instance without elements. -/
theorem instance_to_json_terminates_witness :
    (∃ text : String, Graph.instance_to_json Graph.nested_memory 2 0 = some text) ∧
    Graph.instance_to_json Graph.nested_memory 2 0 =
      some "\x7b\"ClassName\":\"Outer\",\"Part\":\"\x7b\"ClassName\":\"Inner\"\x7d\"\x7d" :=
  ⟨instance_to_json_terminates Graph.nested_memory (fun p => if p = 0 then 1 else 0)
    (by
      intro p q hq
      by_cases hp : p = 0
      · subst hp
        have hq1 : q = 1 := by
          simpa [Graph.instance_pointers, Graph.nested_memory, Graph.value_pointers,
            Graph.MI_Value.ofPointer, Graph.MI_Value.instance_, MI_RESULT_OK, MI_FLAG_NULL,
            MI_INSTANCE, MI_REFERENCE] using hq
        subst hq1
        decide
      · simp [Graph.instance_pointers, Graph.nested_memory, hp] at hq)
    0 2 (by decide),
   by decide⟩

/-- C19: for an instance that contains itself as an embedded instance, no depth of
nested calls lets `instance_to_json` return. -/
theorem instance_to_json_cyclic_diverges :
    ¬ ∃ depth : Nat, (Graph.instance_to_json Graph.cyclic_memory depth 0).isSome = true := by
  rintro ⟨depth, h⟩
  rw [Graph.cyclic_memory_none depth] at h
  cases h

/-- C16: for a cursor that yields first an instance with an unreadable class name and
then one of class `X`, `handle_results` writes a comma before the object of `X`;
without the unreadable instance it writes the object alone. -/
theorem handle_results_unreadable_comma :
    handle_results unreadable_then_named_operation =
      (",\x7b\"ClassName\":\"X\"\x7d", 2) ∧
    handle_results [⟨MI_RESULT_OK, some (MI_Instance.named "X"), MI_FALSE, MI_RESULT_OK⟩] =
      ("\x7b\"ClassName\":\"X\"\x7d", 1) ∧
    handle_results [⟨MI_RESULT_OK, none, MI_TRUE, MI_RESULT_OK⟩,
        ⟨MI_RESULT_OK, some (MI_Instance.named "X"), MI_FALSE, MI_RESULT_OK⟩] =
      ("\x7b\"ClassName\":\"X\"\x7d", 1) ∧
    (Enumerate (fun _ _ _ => unreadable_then_named_operation)
        [("root/scx".data, "A".data)]).2 = "[,\x7b\"ClassName\":\"X\"\x7d]" := by
  decide

theorem escaped_char_token (ch : Char) :
    json_token ((char_to_json ch).getD (String.singleton ch)).data := by
  unfold char_to_json
  split_ifs with h1 h2 h3 h4 h5 h6 h7 h8 <;>
    simp only [Option.getD_some, Option.getD_none]
  · exact Or.inr (by decide)
  · exact Or.inr (by decide)
  · exact Or.inr (by decide)
  · exact Or.inr (by decide)
  · exact Or.inr (by decide)
  · exact Or.inr (by decide)
  · exact Or.inr (by decide)
  · exact Or.inr (by decide)
  · exact Or.inl ⟨ch, rfl, h1, h2⟩

theorem stays_in_string_token (token rest : List Char) (h : json_token token) :
    stays_in_string (token ++ rest) = stays_in_string rest := by
  rcases h with ⟨ch, rfl, hq, hb⟩ | h
  · rw [List.singleton_append, stays_in_string.eq_def]
    simp [hq, hb]
  · simp only [List.mem_cons, List.mem_singleton, List.not_mem_nil, or_false] at h
    rcases h with h | h | h | h | h | h | h | h <;> subst h <;>
      rw [stays_in_string.eq_def] <;> simp

theorem stays_in_string_flatten (tokens : List (List Char))
    (h : ∀ token ∈ tokens, json_token token) : stays_in_string tokens.flatten = true := by
  induction tokens with
  | nil => rfl
  | cons token rest ih =>
    rw [List.flatten_cons, stays_in_string_token token _ (h token (List.mem_cons_self _ _))]
    exact ih (fun t ht => h t (List.mem_cons_of_mem _ ht))

theorem value_to_json_string (value : MI_Value) :
    value_to_json value MI_STRING = "\"" ++ string_to_json value.scalars.string ++ "\"" := by
  cases value
  rw [value_to_json]
  simp [MI_BOOLEAN, MI_UINT8, MI_SINT8, MI_UINT16, MI_SINT16, MI_UINT32, MI_SINT32,
    MI_UINT64, MI_SINT64, MI_REAL32, MI_REAL64, MI_CHAR16, MI_DATETIME, MI_STRING, MI_ARRAY,
    MI_Value.scalars, JSON_START_STRING, JSON_END_STRING,
    show (16 &&& 13 : Nat) = 0 from by decide]

/-- C21: for every string without `NUL`, the text `string_to_json` writes is the
concatenation of one token for each character of the string, each token being either
one character other than the double quote and the backslash or one of the eight
two-character escapes; so read as the content of a quoted string it holds no unescaped
double quote and no dangling backslash, and a string value is written as this text
between two double quotes. -/
theorem string_to_json_tokens (s : List Char) (h : NUL ∉ s) :
    (∃ tokens : List (List Char),
      (string_to_json s).data = tokens.flatten ∧
      tokens.length = s.length ∧
      (∀ token ∈ tokens, json_token token) ∧
      stays_in_string (string_to_json s).data = true) ∧
    (∀ value : MI_Value, value.scalars.string = s →
      value_to_json value MI_STRING = "\"" ++ string_to_json s ++ "\"") := by
  refine ⟨?_, fun value hv => by rw [value_to_json_string, hv]⟩
  have key : ∃ tokens : List (List Char),
      (string_to_json s).data = tokens.flatten ∧ tokens.length = s.length ∧
      (∀ token ∈ tokens, json_token token) := by
    induction s with
    | nil => exact ⟨[], rfl, rfl, by simp⟩
    | cons ch rest ih =>
      have h0 : ch ≠ NUL := fun hc => h (by simp [hc])
      have hr : NUL ∉ rest := fun hc => h (by simp [hc])
      obtain ⟨tokens, h1, h2, h3⟩ := ih hr
      refine ⟨((char_to_json ch).getD (String.singleton ch)).data :: tokens, ?_, ?_, ?_⟩
      · rw [string_to_json_cons ch rest h0, String.data_append, h1, List.flatten_cons]
      · simp [h2]
      · intro token ht
        rcases List.mem_cons.mp ht with ht | ht
        · rw [ht]; exact escaped_char_token ch
        · exact h3 token ht
  obtain ⟨tokens, h1, h2, h3⟩ := key
  exact ⟨tokens, h1, h2, h3, by rw [h1]; exact stays_in_string_flatten tokens h3⟩

/-- C21, at a string that holds a double quote, a backslash and a newline. -/
theorem string_to_json_tokens_witness :
    (∃ tokens : List (List Char),
      (string_to_json ['a', '\"', '\\', '\n']).data = tokens.flatten ∧
      tokens.length = 4 ∧
      (∀ token ∈ tokens, json_token token) ∧
      stays_in_string (string_to_json ['a', '\"', '\\', '\n']).data = true) ∧
    string_to_json ['a', '\"', '\\', '\n'] = "a\\\"\\\\\\n" :=
  ⟨(string_to_json_tokens ['a', '\"', '\\', '\n'] (by decide)).1, by decide⟩

/-- C22: an instance whose metadata can be read has its class name written between
the quotes of the `ClassName` field as it is, without the String Escaper, while the
name of an element goes through `string_to_json`; for the class name `a"b` the field
holds an unescaped double quote, which the escaped form of the same name does not. -/
theorem instance_to_json_class_name_raw :
    (∀ (className : List Char) (elements : List MI_Element),
      instance_to_json (.mk MI_RESULT_OK className MI_RESULT_OK elements) =
        "\x7b\"ClassName\":\"" ++ c_str className ++ "\"" ++ elements_to_json elements ++
          "\x7d" ∧
      (NUL ∉ className → c_str className = String.mk className)) ∧
    (∀ (elementName : List Char) (value : MI_Value) (type : MI_Type)
        (rest : List MI_Element),
      elements_to_json (.mk MI_RESULT_OK elementName value type 0 :: rest) =
        ",\"" ++ string_to_json elementName ++ "\":" ++ value_to_json value type ++
          elements_to_json rest) ∧
    instance_to_json quote_named_instance = "\x7b\"ClassName\":\"a\"b\"\x7d" ∧
    stays_in_string (c_str ['a', '\"', 'b']).data = false ∧
    stays_in_string (string_to_json ['a', '\"', 'b']).data = true := by
  refine ⟨?_, ?_, by decide, by decide, by decide⟩
  · intro className elements
    refine ⟨?_, c_str_of_nulFree className⟩
    rw [instance_to_json, if_pos ⟨rfl, rfl⟩]
    simp only [JSON_DICT_START, JSON_DICT_END, JSON_CLASS_KEY, JSON_START_STRING,
      JSON_END_STRING, JSON_PAIR_TOKEN, String.append_assoc]
    rfl
  · intro elementName value type rest
    rw [elements_to_json, if_pos ⟨rfl, by decide⟩]
    simp only [JSON_SEPARATOR, JSON_START_STRING, JSON_END_STRING, JSON_PAIR_TOKEN,
      String.append_assoc]
    rfl

/-- C23: for every request list and every provider, `Enumerate` returns
`MI_RESULT_OK`; so it does for a provider that cannot create any operation and for a
cursor that fails while it is drained. -/
theorem Enumerate_returns_ok :
    (∀ (m_Session : MI_Session) (enumItems : List EnumItem),
      (Enumerate m_Session enumItems).1 = MI_RESULT_OK) ∧
    Enumerate no_operation_session [("root/scx".data, "A".data)] = (MI_RESULT_OK, "[]") ∧
    Enumerate (fun _ _ _ => failing_operation) [("root/scx".data, "A".data)] =
      (MI_RESULT_OK, "[\x7b\"ClassName\":\"X\"\x7d]") := by
  refine ⟨fun _ _ => rfl, by decide, by decide⟩

end OMI
